import Mathlib

/-! Task-Management: validation, sanitisation and form rules.

A shallow embedding of the validation logic and of the event handlers of
`src/components/Auth.js` and `src/pages/Dashboard.js`.

JavaScript strings are sequences of UTF-16 code units, so a string is modelled
as a `List Nat` of code units; `length`, `trim`, `split` and the regular
expressions of the source (which carry no `u` flag) all work on code units.
-/

namespace TaskManagement

/-! ## JavaScript strings -/

/-- A JavaScript string: its sequence of UTF-16 code units. -/
abbrev Str := List Nat

/-- The code units of a literal of the source (all its literals are ASCII). -/
def js (s : String) : Str := s.toList.map Char.toNat

/-- ECMAScript `WhiteSpace` and `LineTerminator` code units: what `\s` matches
and what `String.prototype.trim` strips. -/
def isWhiteSpace (c : Nat) : Bool :=
  c == 0x09 || c == 0x0A || c == 0x0B || c == 0x0C || c == 0x0D || c == 0x20 ||
  c == 0xA0 || c == 0x1680 || (0x2000 ≤ c && c ≤ 0x200A) ||
  c == 0x2028 || c == 0x2029 || c == 0x202F || c == 0x205F || c == 0x3000 ||
  c == 0xFEFF

/-- ECMAScript `LineTerminator` code units: what `.` does not match. -/
def isLineTerminator (c : Nat) : Bool :=
  c == 0x0A || c == 0x0D || c == 0x2028 || c == 0x2029

/-- `String.prototype.trimStart`. -/
def trimStart (s : Str) : Str := s.dropWhile isWhiteSpace

/-- `String.prototype.trimEnd`. -/
def trimEnd (s : Str) : Str := (s.reverse.dropWhile isWhiteSpace).reverse

/-- `String.prototype.trim`: strips white space from both ends. -/
def trim (s : Str) : Str := trimEnd (trimStart s)

/-- `String.prototype.split` with a separator of one code unit: the pieces
between the occurrences of the separator (never an empty array). -/
def split (sep : Nat) : Str → List Str
  | [] => [[]]
  | c :: cs =>
    if c = sep then [] :: split sep cs
    else
      match split sep cs with
      | [] => [[c]]
      | p :: ps => (c :: p) :: ps

/-- JavaScript truthiness of a string: only the empty string is falsy. -/
def truthy (s : Str) : Bool := !s.isEmpty

/-! ## Regular expressions

The fragment of ECMAScript regular expressions the source uses, without flags
other than `g`. -/

/-- A member of a character class. -/
inductive ClassAtom where
  /-- a literal code unit -/
  | lit (c : Nat)
  /-- a range such as `a-z` -/
  | range (lo hi : Nat)
  /-- the escape `\s` -/
  | space
  /-- the escape `\d` -/
  | digit
  deriving Repr, DecidableEq

/-- Does the class member accept the code unit? -/
def ClassAtom.accepts : ClassAtom → Nat → Bool
  | .lit c, x => x == c
  | .range lo hi, x => lo ≤ x && x ≤ hi
  | .space, x => isWhiteSpace x
  | .digit, x => 0x30 ≤ x && x ≤ 0x39

/-- Regular expression syntax. -/
inductive Regex where
  /-- the assertion `^` -/
  | bol
  /-- the assertion `$` -/
  | eol
  /-- a literal code unit (also an escaped one such as `\.`) -/
  | char (c : Nat)
  /-- the wildcard `.` -/
  | any
  /-- a character class `[...]`, or `[^...]` when `neg` -/
  | set (neg : Bool) (atoms : List ClassAtom)
  /-- concatenation -/
  | seq (a b : Regex)
  /-- greedy `r*` -/
  | star (r : Regex)
  /-- greedy `r+` -/
  | plus (r : Regex)
  /-- positive lookahead `(?=r)` -/
  | lookahead (r : Regex)
  deriving Repr

/-- Matching one code unit against a predicate: the rest of the input when
the first code unit is accepted. -/
def step1 (p : Nat → Bool) : Str → List Str
  | [] => []
  | x :: xs => if p x then [xs] else []

/-- Greedy iteration of a matcher: the inputs left after zero or more rounds,
more rounds first. A round that consumes nothing is rejected, as in
ECMAScript, so `fuel` equal to the length of the input is never exhausted. -/
def starLoop (step : Str → List Str) : Nat → Str → List Str
  | 0, t => [t]
  | fuel + 1, t =>
    ((step t).filter fun u => u.length < t.length).flatMap (starLoop step fuel) ++ [t]

/-- The backtracking matcher: all the inputs that can be left after matching
the expression at the start of `t`, in priority order. `n` is the length of
the whole subject string, so `t` (always a suffix of it) is at the start of
the subject exactly when its length is `n`. -/
def Regex.ends (n : Nat) : Regex → Str → List Str
  | .bol, t => if t.length = n then [t] else []
  | .eol, t => if t.isEmpty then [t] else []
  | .char c, t => step1 (fun x => x == c) t
  | .any, t => step1 (fun x => !isLineTerminator x) t
  | .set neg atoms, t => step1 (fun x => (atoms.any fun a => a.accepts x) != neg) t
  | .seq a b, t => (Regex.ends n a t).flatMap (Regex.ends n b)
  | .star r, t => starLoop (Regex.ends n r) t.length t
  | .plus r, t => (Regex.ends n r t).flatMap fun u => starLoop (Regex.ends n r) u.length u
  | .lookahead r, t => if (Regex.ends n r t).isEmpty then [] else [t]

/-- `RegExp.prototype.test` for an expression without the `g` or `y` flag: is
there a match starting at some index of the subject? -/
def Regex.test (r : Regex) (s : Str) : Bool :=
  (List.range (s.length + 1)).any fun i => !(r.ends s.length (s.drop i)).isEmpty

/-- `String.prototype.replace` with a `g`-flagged expression and a constant
replacement: scanning left to right, every match is replaced; `skip` counts
the code units of the current match still to be dropped. -/
def replaceAllAux (r : Regex) (n : Nat) (repl : Str) : Nat → Str → Str
  | _, [] => if (r.ends n []).isEmpty then [] else repl
  | skip + 1, _ :: cs => replaceAllAux r n repl skip cs
  | 0, c :: cs =>
    match r.ends n (c :: cs) with
    | [] => c :: replaceAllAux r n repl 0 cs
    | u :: _ =>
      let consumed := (c :: cs).length - u.length
      if consumed = 0 then repl ++ c :: replaceAllAux r n repl 0 cs
      else repl ++ replaceAllAux r n repl (consumed - 1) cs

/-- `s.replace(r, repl)` for a `g`-flagged `r`. -/
def replaceAll (r : Regex) (repl : Str) (s : Str) : Str :=
  replaceAllAux r s.length repl 0 s

/-! ## `src/components/Auth.js` -/

namespace Auth

/-- The class `[^\s@]`. -/
def notSpaceAt : Regex := .set true [.space, .lit 0x40]

/-- `emailRegex = /^[^\s@]+@[^\s@]+\.[^\s@]+$/`. -/
def emailRegex : Regex :=
  .seq .bol (.seq (.plus notSpaceAt) (.seq (.char 0x40) (.seq (.plus notSpaceAt)
    (.seq (.char 0x2E) (.seq (.plus notSpaceAt) .eol)))))

/-- `validateEmail`: an error message, or `none` for `null`. -/
def validateEmail (email : Str) : Option String :=
  if !truthy email then some "Email is required"
  else if !emailRegex.test email then some "Please enter a valid email address"
  else if email.length > 254 then some "Email is too long"
  else none

/-- The lookahead `(?=.*[a-z])`. -/
def lowerLookahead : Regex := .lookahead (.seq (.star .any) (.set false [.range 0x61 0x7A]))

/-- The lookahead `(?=.*[A-Z])`. -/
def upperLookahead : Regex := .lookahead (.seq (.star .any) (.set false [.range 0x41 0x5A]))

/-- The lookahead `(?=.*\d)`. -/
def digitLookahead : Regex := .lookahead (.seq (.star .any) (.set false [.digit]))

/-- The members of the class of special characters, in the order of the
source: ! @ # $ % ^ & * ( ) , . ? " : { } | < > -/
def specialAtoms : List ClassAtom :=
  [.lit 0x21, .lit 0x40, .lit 0x23, .lit 0x24, .lit 0x25, .lit 0x5E, .lit 0x26,
   .lit 0x2A, .lit 0x28, .lit 0x29, .lit 0x2C, .lit 0x2E, .lit 0x3F, .lit 0x22,
   .lit 0x3A, .lit 0x7B, .lit 0x7D, .lit 0x7C, .lit 0x3C, .lit 0x3E]

/-- The lookahead on the class of special characters. -/
def specialLookahead : Regex := .lookahead (.seq (.star .any) (.set false specialAtoms))

/-- `validatePassword(password, isSignup)`: an error message, or `none` for
`null`. The source defaults `isSignup` to `false`. -/
def validatePassword (password : Str) (isSignup : Bool) : Option String :=
  if !truthy password then some "Password is required"
  else if password.length < 6 then some "Password must be at least 6 characters long"
  else if password.length > 128 then some "Password is too long"
  else if isSignup then
    if !lowerLookahead.test password then
      some "Password must contain at least one lowercase letter"
    else if !upperLookahead.test password then
      some "Password must contain at least one uppercase letter"
    else if !digitLookahead.test password then
      some "Password must contain at least one number"
    else if !specialLookahead.test password then
      some "Password must contain at least one special character"
    else none
  else none

/-- `sanitizeInput = input.trim().replace(/[<>]/g, '')`. -/
def sanitizeInput (input : Str) : Str :=
  replaceAll (.set false [.lit 0x3C, .lit 0x3E]) [] (trim input)

/-- The strength labels of the sign-up indicator. -/
inductive Strength where
  | weak
  | medium
  | strong
  deriving Repr, DecidableEq

/-- The `test` fields of the array `checks` of `PasswordStrengthIndicator`. -/
def checks (password : Str) : List Bool :=
  [ decide (password.length ≥ 6),
    Regex.test (.set false [.range 0x61 0x7A]) password,
    Regex.test (.set false [.range 0x41 0x5A]) password,
    Regex.test (.set false [.digit]) password,
    Regex.test (.set false specialAtoms) password ]

/-- The count `passedChecks` of `PasswordStrengthIndicator`. -/
def passedChecks (password : Str) : Nat :=
  ((checks password).filter fun test => test).length

/-- The label `strength` of `PasswordStrengthIndicator`. -/
def strength (password : Str) : Strength :=
  if passedChecks password ≤ 2 then .weak
  else if passedChecks password ≤ 4 then .medium
  else .strong

/-- `PasswordStrengthIndicator`: nothing is rendered (`none`) in login mode
or for an empty password; otherwise the strength shown. -/
def PasswordStrengthIndicator (isLogin : Bool) (password : Str) : Option Strength :=
  if isLogin || !truthy password then none
  else some (strength password)

end Auth

/-! ## `src/pages/Dashboard.js` -/

namespace Dashboard

/-- The state `errors` of the create form: one message per field, the empty
string when the field has no error. -/
structure Errors where
  title : String
  description : String
  status : String
  priority : String
  deriving Repr, DecidableEq

/-- `validateForm` on the form state it reads: the value passed to
`setErrors` and the returned flag `valid`. -/
def validateForm (title description status priority : Str) : Errors × Bool :=
  let valid := true
  let newErrors : Errors := { title := "", description := "", status := "", priority := "" }
  let (newErrors, valid) :=
    if !truthy (trim title) then ({ newErrors with title := "Title is required" }, false)
    else (newErrors, valid)
  let (newErrors, valid) :=
    if !truthy (trim description) then
      ({ newErrors with description := "Description is required" }, false)
    else (newErrors, valid)
  let (newErrors, valid) :=
    if !truthy status then ({ newErrors with status := "Status is required" }, false)
    else (newErrors, valid)
  let (newErrors, valid) :=
    if !truthy priority then ({ newErrors with priority := "Priority is required" }, false)
    else (newErrors, valid)
  (newErrors, valid)

/-- `validateEditForm` on the edit state it reads; its local `newErrors` is
never stored, only the flag `valid` is returned. -/
def validateEditForm (editTitle editDescription editStatus : Str) : Bool :=
  let valid := true
  let valid := if !truthy (trim editTitle) then false else valid
  let valid := if !truthy (trim editDescription) then false else valid
  let valid := if !truthy editStatus then false else valid
  valid

/-- The object `extras` of an inserted row. -/
structure Extras where
  tags : List Str
  dueDate : Str
  priority : Str
  deriving Repr, DecidableEq

/-- A row passed to `insert` on the table `tasks`. -/
structure TaskRow where
  user_id : Str
  title : Str
  description : Str
  status : Str
  extras : Extras
  deriving Repr, DecidableEq

/-- The row `handleCreateTask` passes to `insert`, from the user id and the
form state. -/
def insertRow (userId title description status tags dueDate priority : Str) : TaskRow :=
  { user_id := userId
    title := trim title
    description := trim description
    status := status
    extras :=
      { tags := (split 0x2C tags).map fun tag => trim tag
        dueDate := dueDate
        priority := priority } }

end Dashboard

/-! ## Auxiliary definitions for the statements -/

/-- The predicate on code units a one-code-unit expression stands for. -/
def Regex.unit? : Regex → Option (Nat → Bool)
  | .char c => some fun x => x == c
  | .any => some fun x => !isLineTerminator x
  | .set neg atoms => some fun x => (atoms.any fun a => a.accepts x) != neg
  | _ => none

/-- The string has no white space at its start and none at its end. -/
def noEdgeSpace (r : Str) : Prop :=
  (∀ x, r.head? = some x → isWhiteSpace x = false) ∧
    (∀ x, r.getLast? = some x → isWhiteSpace x = false)

/-- Neither `<` nor `>`. -/
def notAngle (x : Nat) : Bool := x != 0x3C && x != 0x3E

/-- Inserting the code unit `c` at index `i` of `p`. -/
def insertAt (p : Str) (i c : Nat) : Str := p.take i ++ c :: p.drop i

namespace Auth

/-- The code units `[^\s@]` accepts. -/
def okChar (x : Nat) : Bool :=
  ([ClassAtom.space, ClassAtom.lit 0x40].any fun a => a.accepts x) != true

/-- What `emailRegex` matches, read off the expression: three non-empty runs
of code units that are neither white space nor `@`, separated by `@` and `.`. -/
def EmailMatch (s : Str) : Prop :=
  ∃ a b c : Str, a ≠ [] ∧ b ≠ [] ∧ c ≠ [] ∧ s = a ++ 0x40 :: (b ++ 0x2E :: c) ∧
    (∀ x ∈ a, okChar x = true) ∧ (∀ x ∈ b, okChar x = true) ∧ (∀ x ∈ c, okChar x = true)

/-- The shape `local@domain` in the words of the specification: no white
space, exactly one `@`, a non-empty local part, and a domain with a `.` that has
at least one character before it and at least one after it. -/
def EmailShape (e : Str) : Prop :=
  (∀ x ∈ e, isWhiteSpace x = false) ∧ e.count 0x40 = 1 ∧
    ∃ loc dom : Str, e = loc ++ 0x40 :: dom ∧ loc ≠ [] ∧
      ∃ before after : Str, dom = before ++ 0x2E :: after ∧ before ≠ [] ∧ after ≠ []

/-- A lowercase letter `a`-`z`. -/
def isLower (x : Nat) : Bool := 0x61 ≤ x && x ≤ 0x7A

/-- An uppercase letter `A`-`Z`. -/
def isUpper (x : Nat) : Bool := 0x41 ≤ x && x ≤ 0x5A

/-- A digit `0`-`9`. -/
def isDigit (x : Nat) : Bool := 0x30 ≤ x && x ≤ 0x39

/-- The special characters, as a string. -/
def specialChars : Str := js "!@#$%^&*(),.?\":\x7b\x7d|<>"

/-- A character of the special set. -/
def isSpecial (x : Nat) : Bool := decide (x ∈ specialChars)

/-- The number of the five checks (length at least 6, a lowercase letter, an
uppercase letter, a digit, a special character) a password passes, in the
words of the specification. -/
def passCount (p : Str) : Nat :=
  (if 6 ≤ p.length then 1 else 0) + (if p.any isLower then 1 else 0) +
    (if p.any isUpper then 1 else 0) + (if p.any isDigit then 1 else 0) +
    (if p.any isSpecial then 1 else 0)

/-- The order weak < medium < strong. -/
def Strength.rank : Strength → Nat
  | .weak => 0
  | .medium => 1
  | .strong => 2

end Auth

/-! ## The handlers of `src/components/Auth.js`

A handler is embedded as the list of the actions it performs, in order: the
calls of the state setters and the calls that leave the component. The state
after the handler is the state before it with the setter calls applied. -/

namespace Auth

/-- The state `validationErrors`: an absent key is `none`. -/
structure ValidationErrors where
  email : Option String
  password : Option String
  deriving Repr, DecidableEq

/-- The state of the component `Auth` (its `useState` cells). -/
structure State where
  email : Str
  password : Str
  isLogin : Bool
  error : Option String
  loading : Bool
  success : Option String
  validationErrors : ValidationErrors
  deriving Repr, DecidableEq

/-- The initial values of the `useState` cells. -/
def State.init : State :=
  { email := [], password := [], isLogin := true, error := none, loading := false,
    success := none, validationErrors := { email := none, password := none } }

/-- The callbacks handed to `setTimeout`. -/
inductive Callback where
  /-- the callback `() => setSuccess(null)` -/
  | clearSuccess
  /-- the callback `() => setError(null)` -/
  | clearError
  /-- the callback `() => navigate(path)` -/
  | navigate (path : String)
  deriving Repr, DecidableEq

/-- What a handler of `Auth` does, step by step. -/
inductive Action where
  | preventDefault
  | setEmail (value : Str)
  | setPassword (value : Str)
  | setIsLogin (value : Bool)
  | setError (value : Option String)
  | setLoading (value : Bool)
  | setSuccess (value : Option String)
  | setValidationErrors (value : ValidationErrors)
  /-- the call `supabase.auth.signInWithPassword` -/
  | signInWithPassword (email password : Str)
  /-- the call `supabase.auth.signUp` -/
  | signUp (email password : Str)
  | setTimeout (cb : Callback) (ms : Nat)
  | consoleError
  deriving Repr, DecidableEq

/-- The effect of one action on the state: a setter stores its argument, any
other action leaves the state alone. -/
def Action.apply : Action → State → State
  | .setEmail v, s => { s with email := v }
  | .setPassword v, s => { s with password := v }
  | .setIsLogin v, s => { s with isLogin := v }
  | .setError v, s => { s with error := v }
  | .setLoading v, s => { s with loading := v }
  | .setSuccess v, s => { s with success := v }
  | .setValidationErrors v, s => { s with validationErrors := v }
  | _, s => s

/-- The state after a list of actions. -/
def run (s : State) (actions : List Action) : State :=
  actions.foldl (fun st a => a.apply st) s

/-- Is the action a call of the auth provider? -/
def Action.isProviderCall : Action → Bool
  | .signInWithPassword _ _ => true
  | .signUp _ _ => true
  | _ => false

/-- Is the action the scheduling of a navigation? -/
def Action.isNavigation : Action → Bool
  | .setTimeout (.navigate _) _ => true
  | _ => false

/-- The outcome of a call of the auth provider. -/
inductive AuthResult where
  /-- the call resolves with `error: null` -/
  | ok
  /-- the call resolves with an error carrying `message` -/
  | error (message : String)
  /-- the call throws or rejects -/
  | throws
  deriving Repr, DecidableEq

/-- What the handlers of `Auth` take from outside the repository: the
built-in `String.prototype.toLowerCase` and the answers of the auth provider. -/
structure Env where
  toLowerCase : Str → Str
  signInWithPassword : Str → Str → AuthResult
  signUp : Str → Str → AuthResult

/-- JavaScript truthiness of a value that is `null` or a string. -/
def truthyMsg : Option String → Bool
  | none => false
  | some m => m != ""

/-- `validateForm` of `Auth`: the object `errors` it builds and stores, and
its result `Object.keys(errors).length === 0`. -/
def validateForm (s : State) : List Action × Bool :=
  let emailError := validateEmail s.email
  let passwordError := validatePassword s.password (!s.isLogin)
  let errors : ValidationErrors :=
    { email := if truthyMsg emailError then emailError else none
      password := if truthyMsg passwordError then passwordError else none }
  ([.setValidationErrors errors], errors.email.isNone && errors.password.isNone)

/-- `showSuccess`. -/
def showSuccess (message : String) : List Action :=
  [.setSuccess (some message), .setTimeout .clearSuccess 4000]

/-- `showError`. -/
def showError (message : String) : List Action :=
  [.setError (some message), .setTimeout .clearError 5000]

/-- The `switch` on `error.message` of `handleSubmit`. -/
def showProviderError (message : String) : List Action :=
  if message = "Invalid login credentials" then
    showError "Invalid email or password. Please check your credentials."
  else if message = "User already registered" then
    showError "An account with this email already exists. Please sign in instead."
  else if message = "Email rate limit exceeded" then
    showError "Too many requests. Please wait a moment before trying again."
  else showError message

/-- The provider call of `handleSubmit`: sign-in in login mode, sign-up
otherwise, with the email in lower case. -/
def providerCall (env : Env) (s : State) : Action :=
  if s.isLogin then .signInWithPassword (env.toLowerCase s.email) s.password
  else .signUp (env.toLowerCase s.email) s.password

/-- The outcome of the provider call of `handleSubmit`. -/
def providerResult (env : Env) (s : State) : AuthResult :=
  if s.isLogin then env.signInWithPassword (env.toLowerCase s.email) s.password
  else env.signUp (env.toLowerCase s.email) s.password

/-- The `try` block of `handleSubmit` with its `catch`: the provider call and
what follows from its outcome. -/
def submitAttempt (env : Env) (s : State) : List Action :=
  providerCall env s ::
    match providerResult env s with
    | .error message => showProviderError message
    | .ok =>
      if s.isLogin then
        showSuccess "Login successful! Redirecting..." ++
          [.setTimeout (.navigate "/dashboard") 1500]
      else
        showSuccess "Check your email to confirm signup!" ++ [.setEmail [], .setPassword []]
    | .throws =>
      .consoleError :: showError "An unexpected error occurred. Please try again."

/-- `handleSubmit`. -/
def handleSubmit (env : Env) (s : State) : List Action :=
  let (validation, valid) := validateForm s
  [.preventDefault, .setError none, .setSuccess none] ++ validation ++
    if !valid then []
    else [.setLoading true] ++ submitAttempt env s ++ [.setLoading false]

end Auth

/-! ## The handlers of `src/pages/Dashboard.js` -/

namespace Dashboard

/-- The user object of the auth provider, as far as the dashboard reads it. -/
structure User where
  id : Str
  deriving Repr, DecidableEq

/-- A row of the table `tasks` as the store returns it. -/
structure StoredTask where
  id : Nat
  user_id : Str
  title : Str
  description : Str
  status : Str
  extras : Option Extras
  deriving Repr, DecidableEq

/-- The state `alert`: a message and its type (`'success'`, `'error'`). -/
structure Alert where
  message : String
  type : String
  deriving Repr, DecidableEq

/-- The state of the component `Dashboard` (its `useState` cells). -/
structure State where
  tasks : List StoredTask
  title : Str
  description : Str
  status : Str
  tags : Str
  dueDate : Str
  priority : Str
  loading : Bool
  statusFilter : Str
  alert : Option Alert
  isCreating : Bool
  user : Option User
  errors : Errors
  editingTask : Option StoredTask
  editTitle : Str
  editDescription : Str
  editStatus : Str
  deriving Repr, DecidableEq

/-- The initial values of the `useState` cells. -/
def State.init : State :=
  { tasks := [], title := [], description := [], status := js "pending", tags := [],
    dueDate := [], priority := [], loading := true, statusFilter := js "all", alert := none,
    isCreating := false, user := none,
    errors := { title := "", description := "", status := "", priority := "" },
    editingTask := none, editTitle := [], editDescription := [], editStatus := js "pending" }

/-- The callback handed to `setTimeout`: `() => setAlert(null)`. -/
inductive Callback where
  | clearAlert
  deriving Repr, DecidableEq

/-- What a handler of `Dashboard` does, step by step. -/
inductive Action where
  | preventDefault
  | setTasks (value : List StoredTask)
  | setTitle (value : Str)
  | setDescription (value : Str)
  | setStatus (value : Str)
  | setTags (value : Str)
  | setDueDate (value : Str)
  | setPriority (value : Str)
  | setLoading (value : Bool)
  | setAlert (value : Option Alert)
  | setIsCreating (value : Bool)
  | setUser (value : Option User)
  | setErrors (value : Errors)
  | setEditingTask (value : Option StoredTask)
  | setEditTitle (value : Str)
  | setEditDescription (value : Str)
  | setEditStatus (value : Str)
  | setTimeout (cb : Callback) (ms : Nat)
  /-- the call `supabase.auth.getUser()` -/
  | getUser
  /-- the query `from('tasks').select('*').eq('user_id', userId)`, ordered by
  `created_at` descending, with `.eq('status', status)` when `status` is given -/
  | select (userId : Str) (status : Option Str)
  /-- the call `from('tasks').insert([row])` -/
  | insert (row : TaskRow)
  /-- the call `from('tasks').delete().eq('id', taskId)` -/
  | delete (taskId : Nat)
  /-- the call `from('tasks').update(payload).eq('id', taskId)`; the payload is
  the object literal, key by key -/
  | update (payload : List (String × Str)) (taskId : Nat)
  deriving Repr, DecidableEq

/-- The effect of one action on the state: a setter stores its argument, any
other action leaves the state alone. -/
def Action.apply : Action → State → State
  | .setTasks v, s => { s with tasks := v }
  | .setTitle v, s => { s with title := v }
  | .setDescription v, s => { s with description := v }
  | .setStatus v, s => { s with status := v }
  | .setTags v, s => { s with tags := v }
  | .setDueDate v, s => { s with dueDate := v }
  | .setPriority v, s => { s with priority := v }
  | .setLoading v, s => { s with loading := v }
  | .setAlert v, s => { s with alert := v }
  | .setIsCreating v, s => { s with isCreating := v }
  | .setUser v, s => { s with user := v }
  | .setErrors v, s => { s with errors := v }
  | .setEditingTask v, s => { s with editingTask := v }
  | .setEditTitle v, s => { s with editTitle := v }
  | .setEditDescription v, s => { s with editDescription := v }
  | .setEditStatus v, s => { s with editStatus := v }
  | _, s => s

/-- The state after a list of actions. -/
def run (s : State) (actions : List Action) : State :=
  actions.foldl (fun st a => a.apply st) s

/-- Is the action an insert against the store? -/
def Action.isInsert : Action → Bool
  | .insert _ => true
  | _ => false

/-- Is the action an update against the store? -/
def Action.isUpdate : Action → Bool
  | .update _ _ => true
  | _ => false

/-- Is the action a delete against the store? -/
def Action.isDelete : Action → Bool
  | .delete _ => true
  | _ => false

/-- Is the action a request of the refetch: the user lookup or the query of
`fetchTasks`? -/
def Action.isFetch : Action → Bool
  | .getUser => true
  | .select _ _ => true
  | _ => false

/-- The answer of `supabase.auth.getUser()`. -/
inductive UserResponse where
  | error (message : String)
  | ok (user : User)
  deriving Repr, DecidableEq

/-- The answer of the task query. -/
inductive QueryResponse where
  | error (message : String)
  | ok (data : List StoredTask)
  deriving Repr, DecidableEq

/-- The answers of the auth provider and of the task store; a mutation
answers with its error message, or `none` for `error: null`. -/
structure Env where
  getUser : UserResponse
  select : Str → Option Str → QueryResponse
  insert : TaskRow → Option String
  delete : Nat → Option String
  update : List (String × Str) → Nat → Option String

/-- `showAlert(message, type)`; the source defaults `type` to `'success'`. -/
def showAlert (message : String) (type : String) : List Action :=
  [.setAlert (some { message := message, type := type }), .setTimeout .clearAlert 4000]

/-- The part of `fetchTasks` up to its first `await`: a caller that does not
await `fetchTasks()` resumes after these actions. -/
def fetchTasksStart : List Action := [.setLoading true, .getUser]

/-- The part of `fetchTasks` that runs once the user lookup has answered. -/
def fetchTasksRest (env : Env) (s : State) : List Action :=
  match env.getUser with
  | .error _ => showAlert "Failed to fetch user data" "error"
  | .ok user =>
    let status := if s.statusFilter != js "all" then some s.statusFilter else none
    [.setUser (some user), .select user.id status] ++
      (match env.select user.id status with
        | .error _ => showAlert "Error fetching tasks" "error"
        | .ok data => [.setTasks data]) ++
      [.setLoading false]

/-- `fetchTasks`. -/
def fetchTasks (env : Env) (s : State) : List Action :=
  fetchTasksStart ++ fetchTasksRest env s

/-- `handleCreateTask`. With no user in the state, reading `user.id` throws
and the handler stops there. The source calls `fetchTasks()` without awaiting
it, so `setIsCreating(false)` runs after the part of `fetchTasks` up to its
first `await` and before the rest of it. -/
def handleCreateTask (env : Env) (s : State) : List Action :=
  let (newErrors, valid) := validateForm s.title s.description s.status s.priority
  [.preventDefault, .setErrors newErrors] ++
    if !valid then showAlert "Please fill all required fields" "error"
    else
      .setIsCreating true ::
        match s.user with
        | none => []
        | some user =>
          let row := insertRow user.id s.title s.description s.status s.tags s.dueDate s.priority
          .insert row ::
            match env.insert row with
            | some _ => showAlert "Failed to create task" "error" ++ [.setIsCreating false]
            | none =>
              showAlert "Task created successfully!" "success" ++
                [.setTitle [], .setDescription [], .setStatus (js "pending"), .setTags [],
                 .setDueDate [], .setPriority [],
                 .setErrors { title := "", description := "", status := "", priority := "" }] ++
                fetchTasksStart ++ [.setIsCreating false] ++ fetchTasksRest env s

/-- `handleDeleteTask`. -/
def handleDeleteTask (env : Env) (s : State) (taskId : Nat) : List Action :=
  .delete taskId ::
    match env.delete taskId with
    | some _ => showAlert "Failed to delete task" "error"
    | none => showAlert "Task deleted successfully" "success" ++ fetchTasks env s

/-- `startEditing`; a missing field of the task is modelled by the empty
string, which `||` replaces like `undefined`. -/
def startEditing (task : StoredTask) : List Action :=
  [.setEditingTask (some task),
   .setEditTitle (if truthy task.title then task.title else []),
   .setEditDescription (if truthy task.description then task.description else []),
   .setEditStatus (if truthy task.status then task.status else js "pending")]

/-- `handleUpdateTask`. With no task being edited, reading `editingTask.id`
throws and the handler stops there. -/
def handleUpdateTask (env : Env) (s : State) : List Action :=
  if !validateEditForm s.editTitle s.editDescription s.editStatus then
    showAlert "Please fill all required fields" "error"
  else
    match s.editingTask with
    | none => []
    | some task =>
      let payload : List (String × Str) :=
        [("title", s.editTitle), ("description", s.editDescription), ("status", s.editStatus)]
      .update payload task.id ::
        match env.update payload task.id with
        | some _ => showAlert "Failed to update task" "error"
        | none =>
          showAlert "Task updated successfully!" "success" ++ [.setEditingTask none] ++
            fetchTasks env s

end Dashboard

/-! ## Timers

The components with a clock: `setTimeout(cb, ms)` makes `cb` due `ms`
milliseconds after the current time, nothing in the source cancels a pending
callback (there is no `clearTimeout`), and when time passes the callbacks that
have become due run, earliest first. -/

namespace Dashboard

/-- What a callback does when it runs. -/
def Callback.actions : Callback → List Action
  | .clearAlert => [.setAlert none]

/-- The dashboard with a clock and its pending callbacks, each with the time
it is due. -/
structure Timed where
  now : Nat
  state : State
  timers : List (Nat × Callback)
  deriving Repr, DecidableEq

/-- The callbacks a list of actions schedules at time `now`. -/
def scheduled (now : Nat) (actions : List Action) : List (Nat × Callback) :=
  actions.filterMap fun a =>
    match a with
    | .setTimeout cb ms => some (now + ms, cb)
    | _ => none

/-- A handler runs at the current time: its setters are applied and its
callbacks become pending. -/
def Timed.perform (c : Timed) (actions : List Action) : Timed :=
  { c with state := run c.state actions, timers := c.timers ++ scheduled c.now actions }

/-- The pending callbacks due by time `t`, earliest first. -/
def Timed.due (c : Timed) (t : Nat) : List (Nat × Callback) :=
  (c.timers.filter fun p => p.1 ≤ t).insertionSort fun p q => p.1 ≤ q.1

/-- Time passes until `t`: the callbacks due by then run and are no longer
pending. -/
def Timed.advance (c : Timed) (t : Nat) : Timed :=
  { now := max c.now t
    state := run c.state ((c.due t).flatMap fun p => p.2.actions)
    timers := c.timers.filter fun p => t < p.1 }

end Dashboard

namespace Auth

/-- The authentication screen with a clock, its pending callbacks, each with
the time it is due, and the route the router shows. -/
structure Timed where
  now : Nat
  state : State
  timers : List (Nat × Callback)
  location : String
  deriving Repr, DecidableEq

/-- A callback runs. -/
def Callback.fire : Callback → Timed → Timed
  | .clearSuccess, c => { c with state := { c.state with success := none } }
  | .clearError, c => { c with state := { c.state with error := none } }
  | .navigate path, c => { c with location := path }

/-- The callbacks a list of actions schedules at time `now`. -/
def scheduled (now : Nat) (actions : List Action) : List (Nat × Callback) :=
  actions.filterMap fun a =>
    match a with
    | .setTimeout cb ms => some (now + ms, cb)
    | _ => none

/-- A handler runs at the current time: its setters are applied and its
callbacks become pending. -/
def Timed.perform (c : Timed) (actions : List Action) : Timed :=
  { c with state := run c.state actions, timers := c.timers ++ scheduled c.now actions }

/-- The pending callbacks due by time `t`, earliest first. -/
def Timed.due (c : Timed) (t : Nat) : List (Nat × Callback) :=
  (c.timers.filter fun p => p.1 ≤ t).insertionSort fun p q => p.1 ≤ q.1

/-- Time passes until `t`: the callbacks due by then run and are no longer
pending. -/
def Timed.advance (c : Timed) (t : Nat) : Timed :=
  let fired := (c.due t).foldl (fun st p => p.2.fire st) c
  { fired with now := max c.now t, timers := c.timers.filter fun p => t < p.1 }

end Auth

/-! ## Auxiliary definitions for the statements on the handlers -/

namespace Auth

/-- Both validators of the form return `null`; the password is validated
strictly exactly in sign-up mode. -/
def validated (s : State) : Bool :=
  (validateEmail s.email).isNone && (validatePassword s.password (!s.isLogin)).isNone

/-- The closed lookup of the specification from provider messages to
user-facing texts, with the raw message as fallback. -/
def userFacingText (message : String) : String :=
  if message = "Invalid login credentials" then
    "Invalid email or password. Please check your credentials."
  else if message = "User already registered" then
    "An account with this email already exists. Please sign in instead."
  else if message = "Email rate limit exceeded" then
    "Too many requests. Please wait a moment before trying again."
  else message

/-- An environment for examples: lower-casing of ASCII letters and fixed
answers of the provider. -/
def Env.sample (signIn signUp : AuthResult) : Env :=
  { toLowerCase := fun s => s.map fun c => if isUpper c then c + 0x20 else c
    signInWithPassword := fun _ _ => signIn
    signUp := fun _ _ => signUp }

/-- A form state for examples: the given mode, email and password, nothing
else set. -/
def State.sample (isLogin : Bool) (email password : String) : State :=
  { State.init with isLogin := isLogin, email := js email, password := js password }

end Auth

namespace Dashboard

/-- Does the action, when it is a `setTimeout`, use the delay `d`? -/
def Action.delayIs (d : Nat) : Action → Bool
  | .setTimeout _ ms => ms == d
  | _ => true

/-- An environment for examples: the given answers of the user lookup and of
the query, and one answer for every mutation. -/
def Env.sample (getUser : UserResponse) (query : QueryResponse) (mutation : Option String) :
    Env :=
  { getUser := getUser
    select := fun _ _ => query
    insert := fun _ => mutation
    delete := fun _ => mutation
    update := fun _ _ => mutation }

/-- A stored task for examples. -/
def StoredTask.sample : StoredTask :=
  { id := 7, user_id := js "u1", title := js "old title", description := js "old text",
    status := js "pending", extras := none }

end Dashboard

/-! ## The other handlers of `src/components/Auth.js` and its steps -/

namespace Auth

/-- `handleEmailChange`, on the value of the input. The updater
`prev => ({ ...prev, email: null })` is applied to the current errors. -/
def handleEmailChange (s : State) (value : Str) : List Action :=
  .setEmail (sanitizeInput value) ::
    if truthyMsg s.validationErrors.email then
      [.setValidationErrors { s.validationErrors with email := none }]
    else []

/-- `handlePasswordChange`, on the value of the input, which is not
sanitized. -/
def handlePasswordChange (s : State) (value : Str) : List Action :=
  .setPassword value ::
    if truthyMsg s.validationErrors.password then
      [.setValidationErrors { s.validationErrors with password := none }]
    else []

/-- The `onClick` of the button that toggles between sign-in and sign-up. -/
def toggleMode (s : State) : List Action :=
  [.setIsLogin (!s.isLogin), .setError none, .setSuccess none,
   .setValidationErrors { email := none, password := none }]

/-- The authentication screen when it is mounted, on the route `/`. -/
def Timed.init : Timed :=
  { now := 0, state := State.init, timers := [], location := "/" }

/-- One atomic step of the authentication screen: an input changes, a
complete run of `handleSubmit` against some answers of the provider, a toggle
of the mode, or time passing with the expiry of the callbacks that become
due. -/
inductive Step : Timed → Timed → Prop where
  | emailChange (c : Timed) (value : Str) :
    Step c (c.perform (handleEmailChange c.state value))
  | passwordChange (c : Timed) (value : Str) :
    Step c (c.perform (handlePasswordChange c.state value))
  | submit (c : Timed) (env : Env) : Step c (c.perform (handleSubmit env c.state))
  | toggle (c : Timed) : Step c (c.perform (toggleMode c.state))
  | expire (c : Timed) (t : Nat) : Step c (c.advance t)

/-- The states reachable from the initial one. -/
inductive Reachable : Timed → Prop where
  | init : Reachable Timed.init
  | step {c d : Timed} : Reachable c → Step c d → Reachable d

/-- A run for examples: the email and the password are typed, the form is
submitted in login mode and the provider accepts. -/
def Timed.sampleRun : Timed :=
  let c1 := Timed.init.perform (handleEmailChange Timed.init.state (js " a@b.com "))
  let c2 := c1.perform (handlePasswordChange c1.state (js "abcdef"))
  c2.perform (handleSubmit (Env.sample .ok .ok) c2.state)

end Auth

namespace Dashboard

/-- A dashboard state for examples: a signed-in user and a filled create
form. -/
def State.sampleForm : State :=
  { State.init with
    user := some { id := js "u1" }, title := js " Buy milk ", description := js "2 litres",
    priority := js "High", tags := js "home" }

end Dashboard

/-! ## What the screens render, and the options of the selects -/

namespace Auth

/-- The error alert the screen renders, `{error && <Alert message={error}
type="error" />}`: nothing for `null` and nothing for the empty string. -/
def State.errorAlert (s : State) : Option String :=
  if truthyMsg s.error then s.error else none

/-- The success alert the screen renders, `{success && <Alert
message={success} type="success" />}`. -/
def State.successAlert (s : State) : Option String :=
  if truthyMsg s.success then s.success else none

end Auth

namespace Dashboard

/-- The dashboard when it is mounted, nothing pending. -/
def Timed.init : Timed := { now := 0, state := State.init, timers := [] }

/-- A dashboard for examples: at time 3000, with the expiry of an alert shown
at time 0 still pending. -/
def Timed.samplePending : Timed :=
  { now := 3000, state := State.init, timers := [(4000, .clearAlert)] }

/-- The values of the `option`s of the status `select` of the create form;
the state `status` starts as, and is reset to, `'pending'`. -/
def statusOptions : List Str := [js "pending", js "in-progress", js "done"]

/-- The values of the `option`s of the priority `select` of the create form;
the state `priority` starts as, and is reset to, the empty string. -/
def priorityOptions : List Str := [js "", js "High", js "Medium", js "Low"]

end Dashboard

end TaskManagement

/-! # Theorems -/

namespace TaskManagement

/-! ## The matcher on one-code-unit expressions -/

theorem mem_step1 {p : Nat → Bool} {t u : Str} :
    u ∈ step1 p t ↔ ∃ x, t = x :: u ∧ p x = true := by
  cases t with
  | nil => simp [step1]
  | cons y ys =>
    by_cases h : p y = true
    · simp only [step1, h, if_true, List.mem_singleton]
      constructor
      · rintro rfl
        exact ⟨y, rfl, h⟩
      · rintro ⟨x, hx, _⟩
        exact ((List.cons.inj hx).2).symm
    · have h' : p y = false := by simpa using h
      simp only [step1, h', Bool.false_eq_true, if_false, List.not_mem_nil, false_iff]
      rintro ⟨x, hx, hp⟩
      rw [(List.cons.inj hx).1] at h
      exact h hp

theorem mem_starLoop_step1 {p : Nat → Bool} : ∀ (k : Nat) (t u : Str),
    u ∈ starLoop (step1 p) k t ↔
      ∃ pre, t = pre ++ u ∧ (∀ x ∈ pre, p x = true) ∧ pre.length ≤ k := by
  intro k
  induction k with
  | zero =>
    intro t u
    simp only [starLoop, List.mem_singleton, Nat.le_zero, List.length_eq_zero]
    constructor
    · rintro rfl
      exact ⟨[], rfl, by simp, rfl⟩
    · rintro ⟨pre, h, _, rfl⟩
      simpa using h.symm
  | succ k ih =>
    intro t u
    simp only [starLoop, List.mem_append, List.mem_flatMap, List.mem_filter, List.mem_singleton,
      decide_eq_true_eq, mem_step1]
    constructor
    · rintro (⟨v, ⟨⟨x, rfl, hx⟩, _⟩, hv⟩ | rfl)
      · obtain ⟨pre, rfl, hpre, hlen⟩ := (ih v u).1 hv
        refine ⟨x :: pre, rfl, ?_, by simpa using hlen⟩
        intro y hy
        rcases List.mem_cons.1 hy with rfl | hy
        · exact hx
        · exact hpre y hy
      · exact ⟨[], rfl, by simp, by simp⟩
    · rintro ⟨pre, rfl, hpre, hlen⟩
      cases pre with
      | nil => right; rfl
      | cons x pre =>
        left
        refine ⟨pre ++ u, ⟨⟨x, rfl, hpre x (List.mem_cons_self _ _)⟩, by simp⟩, ?_⟩
        exact (ih (pre ++ u) u).2 ⟨pre, rfl, fun y hy => hpre y (List.mem_cons_of_mem _ hy),
          by simpa using hlen⟩

theorem ends_of_unit {r : Regex} {p : Nat → Bool} (h : r.unit? = some p) (n : Nat) :
    Regex.ends n r = step1 p := by
  funext t
  cases r <;> simp only [Regex.unit?, Option.some.injEq, reduceCtorEq] at h <;>
    subst h <;> rfl

theorem mem_ends_star_unit {r : Regex} {p : Nat → Bool} (h : r.unit? = some p) (n : Nat)
    (t u : Str) :
    u ∈ Regex.ends n (.star r) t ↔ ∃ pre, t = pre ++ u ∧ ∀ x ∈ pre, p x = true := by
  simp only [Regex.ends, ends_of_unit h, mem_starLoop_step1]
  constructor
  · rintro ⟨pre, h1, h2, _⟩
    exact ⟨pre, h1, h2⟩
  · rintro ⟨pre, rfl, h2⟩
    exact ⟨pre, rfl, h2, by simp⟩

theorem mem_ends_plus_unit {r : Regex} {p : Nat → Bool} (h : r.unit? = some p) (n : Nat)
    (t u : Str) :
    u ∈ Regex.ends n (.plus r) t ↔
      ∃ pre, pre ≠ [] ∧ t = pre ++ u ∧ ∀ x ∈ pre, p x = true := by
  simp only [Regex.ends, ends_of_unit h, List.mem_flatMap, mem_step1, mem_starLoop_step1]
  constructor
  · rintro ⟨v, ⟨x, rfl, hx⟩, pre, rfl, hpre, _⟩
    refine ⟨x :: pre, by simp, rfl, ?_⟩
    intro y hy
    rcases List.mem_cons.1 hy with rfl | hy
    · exact hx
    · exact hpre y hy
  · rintro ⟨pre, hne, rfl, hpre⟩
    cases pre with
    | nil => exact absurd rfl hne
    | cons x pre =>
      exact ⟨pre ++ u, ⟨x, rfl, hpre x (List.mem_cons_self _ _)⟩, pre, rfl,
        fun y hy => hpre y (List.mem_cons_of_mem _ hy), by simp⟩

theorem test_eq_true_iff (r : Regex) (s : Str) :
    r.test s = true ↔ ∃ i, i ≤ s.length ∧ r.ends s.length (s.drop i) ≠ [] := by
  simp only [Regex.test, List.any_eq_true, List.mem_range, Bool.not_eq_true', List.isEmpty_eq_false]
  constructor
  · rintro ⟨i, hi, h⟩
    exact ⟨i, by omega, h⟩
  · rintro ⟨i, hi, h⟩
    exact ⟨i, by omega, h⟩

theorem mem_ends_seq (n : Nat) (a b : Regex) (t u : Str) :
    u ∈ Regex.ends n (.seq a b) t ↔ ∃ v, v ∈ Regex.ends n a t ∧ u ∈ Regex.ends n b v := by
  simp only [Regex.ends, List.mem_flatMap]

theorem mem_ends_bol (n : Nat) (t u : Str) :
    u ∈ Regex.ends n .bol t ↔ t.length = n ∧ u = t := by
  by_cases h : t.length = n <;> simp [Regex.ends, h]

theorem mem_ends_eol (n : Nat) (t u : Str) :
    u ∈ Regex.ends n .eol t ↔ t = [] ∧ u = [] := by
  cases t <;> simp [Regex.ends]

theorem mem_ends_char (n c : Nat) (t u : Str) :
    u ∈ Regex.ends n (.char c) t ↔ t = c :: u := by
  simp only [Regex.ends, mem_step1, beq_iff_eq]
  constructor
  · rintro ⟨x, rfl, rfl⟩
    rfl
  · intro h
    exact ⟨c, h, rfl⟩

theorem mem_ends_set (n : Nat) (neg : Bool) (atoms : List ClassAtom) (t u : Str) :
    u ∈ Regex.ends n (.set neg atoms) t ↔
      ∃ x, t = x :: u ∧ ((atoms.any fun a => a.accepts x) != neg) = true := by
  simp only [Regex.ends, mem_step1]

theorem ne_nil_iff_exists_mem {α : Type} (l : List α) : l ≠ [] ↔ ∃ u, u ∈ l := by
  cases l with
  | nil => simp
  | cons a l => simp

namespace Auth

theorem notSpaceAt_unit : notSpaceAt.unit? = some okChar := rfl

theorem okChar_iff (x : Nat) : okChar x = true ↔ isWhiteSpace x = false ∧ x ≠ 0x40 := by
  simp [okChar, ClassAtom.accepts]

theorem mem_ends_emailRegex (n : Nat) (t u : Str) :
    u ∈ emailRegex.ends n t ↔ t.length = n ∧ u = [] ∧ EmailMatch t := by
  simp only [emailRegex, mem_ends_seq, mem_ends_bol, mem_ends_eol, mem_ends_char,
    mem_ends_plus_unit notSpaceAt_unit, EmailMatch]
  constructor
  · rintro ⟨v1, ⟨hn, rfl⟩, v2, ⟨a, ha, rfl, hpa⟩, v3, rfl, v4, ⟨b, hb, rfl, hpb⟩, v5, rfl,
      v6, ⟨c, hc, rfl, hpc⟩, rfl, rfl⟩
    exact ⟨hn, rfl, a, b, c, ha, hb, hc, by simp, hpa, hpb, hpc⟩
  · rintro ⟨hn, rfl, a, b, c, ha, hb, hc, rfl, hpa, hpb, hpc⟩
    exact ⟨_, ⟨hn, rfl⟩, _, ⟨a, ha, rfl, hpa⟩, _, rfl, _, ⟨b, hb, rfl, hpb⟩, _, rfl,
      _, ⟨c, hc, by simp, hpc⟩, rfl, rfl⟩

theorem emailRegex_test_iff (s : Str) : emailRegex.test s = true ↔ EmailMatch s := by
  rw [test_eq_true_iff]
  simp only [ne_nil_iff_exists_mem, mem_ends_emailRegex]
  constructor
  · rintro ⟨i, hi, u, hlen, _, hm⟩
    have h0 : i = 0 := by
      rw [List.length_drop] at hlen
      omega
    subst h0
    simpa using hm
  · intro hm
    exact ⟨0, Nat.zero_le _, [], by simp, rfl, by simpa using hm⟩

theorem count_at_eq_zero {l : Str} (h : ∀ x ∈ l, okChar x = true) : l.count 0x40 = 0 := by
  rw [List.count_eq_zero]
  intro hmem
  exact ((okChar_iff _).1 (h _ hmem)).2 rfl

theorem emailMatch_iff_shape (e : Str) : EmailMatch e ↔ EmailShape e := by
  constructor
  · rintro ⟨a, b, c, ha, hb, hc, rfl, hpa, hpb, hpc⟩
    refine ⟨?_, ?_, a, b ++ 0x2E :: c, rfl, ha, b, c, rfl, hb, hc⟩
    · intro x hx
      simp only [List.mem_append, List.mem_cons] at hx
      rcases hx with hx | rfl | hx | rfl | hx
      · exact ((okChar_iff _).1 (hpa x hx)).1
      · decide
      · exact ((okChar_iff _).1 (hpb x hx)).1
      · decide
      · exact ((okChar_iff _).1 (hpc x hx)).1
    · simp [List.count_append, List.count_cons, count_at_eq_zero hpa, count_at_eq_zero hpb,
        count_at_eq_zero hpc]
  · rintro ⟨hws, hcount, loc, dom, rfl, hloc, before, after, rfl, hb, ha⟩
    simp only [List.count_append, List.count_cons, beq_self_eq_true, if_true] at hcount
    have h1 : List.count 0x40 loc = 0 := by omega
    have h2 : List.count 0x40 before = 0 := by omega
    have h3 : List.count 0x40 after = 0 := by
      have : ((0x2E : Nat) == 0x40) = false := by decide
      simp only [this] at hcount
      simp at hcount
      omega
    rw [List.count_eq_zero] at h1 h2 h3
    refine ⟨loc, before, after, hloc, hb, ha, rfl, ?_, ?_, ?_⟩
    · intro x hx
      exact (okChar_iff x).2 ⟨hws x (by simp [hx]), fun h => h1 (h ▸ hx)⟩
    · intro x hx
      exact (okChar_iff x).2 ⟨hws x (by simp [hx]), fun h => h2 (h ▸ hx)⟩
    · intro x hx
      exact (okChar_iff x).2 ⟨hws x (by simp [hx]), fun h => h3 (h ▸ hx)⟩

theorem truthy_iff (s : Str) : truthy s = true ↔ s ≠ [] := by
  cases s <;> simp [truthy]

/-- Claim C1: for every string `e`, `validateEmail e` is the Required message
iff `e` is empty; otherwise the InvalidFormat message iff `e` is not of the
shape `local@domain` (no white space, exactly one `@`, a non-empty local part, a
domain with a `.` that has a character before and after it); otherwise the
TooLong message iff the length exceeds 254; and `null` in the remaining case, so
the format is checked before the length. The four sample values of the
specification evaluate as stated. -/
theorem validateEmail_spec :
    (∀ e : Str,
      (validateEmail e = some "Email is required" ↔ e = []) ∧
      (validateEmail e = some "Please enter a valid email address" ↔
        e ≠ [] ∧ ¬ EmailShape e) ∧
      (validateEmail e = some "Email is too long" ↔
        e ≠ [] ∧ EmailShape e ∧ e.length > 254) ∧
      (validateEmail e = none ↔ e ≠ [] ∧ EmailShape e ∧ e.length ≤ 254)) ∧
    validateEmail (js "") = some "Email is required" ∧
    validateEmail (js "a@b") = some "Please enter a valid email address" ∧
    validateEmail (js "a@b.com") = none ∧
    validateEmail (js "a@" ++ List.replicate 260 0x62 ++ js ".com") =
      some "Email is too long" := by
  refine ⟨?_, by decide, by decide, by decide, ?_⟩
  · intro e
    by_cases he : e = []
    · subst he
      simp [validateEmail, truthy]
    · have ht : truthy e = true := (truthy_iff e).2 he
      by_cases hm : emailRegex.test e = true
      · have hs : EmailShape e := (emailMatch_iff_shape e).1 ((emailRegex_test_iff e).1 hm)
        by_cases hl : e.length > 254
        · simp [validateEmail, ht, hm, hl, he, hs]
        · simp [validateEmail, ht, hm, hl, he, hs]
          omega
      · have hs : ¬ EmailShape e := fun h =>
          hm ((emailRegex_test_iff e).2 ((emailMatch_iff_shape e).2 h))
        simp [validateEmail, ht, hm, he, hs]
  · set_option maxRecDepth 100000 in decide

end Auth

theorem mem_ends_lookahead (n : Nat) (r : Regex) (t u : Str) :
    u ∈ Regex.ends n (.lookahead r) t ↔ u = t ∧ Regex.ends n r t ≠ [] := by
  cases h : Regex.ends n r t <;> simp [Regex.ends, h]

/-- An unanchored one-code-unit expression is found exactly in the strings
that contain an accepted code unit. -/
theorem test_unit_iff {r : Regex} {p : Nat → Bool} (h : r.unit? = some p) (s : Str) :
    r.test s = true ↔ ∃ x ∈ s, p x = true := by
  rw [test_eq_true_iff]
  simp only [ne_nil_iff_exists_mem, ends_of_unit h, mem_step1]
  constructor
  · rintro ⟨i, _, u, x, hx, hp⟩
    refine ⟨x, List.mem_of_mem_drop (n := i) ?_, hp⟩
    rw [hx]
    exact List.mem_cons_self _ _
  · rintro ⟨x, hx, hp⟩
    obtain ⟨l1, l2, rfl⟩ := List.append_of_mem hx
    exact ⟨l1.length, by simp, l2, x, by simp, hp⟩

/-- The lookahead `(?=.*r)` on a one-code-unit expression `r` is found
exactly in the strings that contain an accepted code unit. -/
theorem test_lookahead_iff {r : Regex} {p : Nat → Bool} (h : r.unit? = some p) (s : Str) :
    Regex.test (.lookahead (.seq (.star .any) r)) s = true ↔ ∃ x ∈ s, p x = true := by
  rw [test_eq_true_iff]
  simp only [ne_nil_iff_exists_mem, mem_ends_lookahead, mem_ends_seq,
    mem_ends_star_unit (r := .any) rfl, ends_of_unit h, mem_step1]
  constructor
  · rintro ⟨i, _, u, _, w, v, ⟨pre, hpre, _⟩, x, hx, hp⟩
    refine ⟨x, List.mem_of_mem_drop (n := i) ?_, hp⟩
    rw [hpre, hx]
    simp
  · rintro ⟨x, hx, hp⟩
    obtain ⟨l1, l2, rfl⟩ := List.append_of_mem hx
    exact ⟨l1.length, by simp, _, rfl, l2, x :: l2, ⟨[], by simp, by simp⟩, x, rfl, hp⟩

namespace Auth

theorem any_iff (p : Nat → Bool) (s : Str) : s.any p = true ↔ ∃ x ∈ s, p x = true := by
  simp [List.any_eq_true]

theorem specialChars_eq : specialChars =
    [0x21, 0x40, 0x23, 0x24, 0x25, 0x5E, 0x26, 0x2A, 0x28, 0x29, 0x2C, 0x2E, 0x3F, 0x22,
     0x3A, 0x7B, 0x7D, 0x7C, 0x3C, 0x3E] := by decide

theorem special_accepts (x : Nat) :
    (specialAtoms.any fun a => a.accepts x) = isSpecial x := by
  rw [Bool.eq_iff_iff]
  simp [isSpecial, specialChars_eq, specialAtoms, ClassAtom.accepts]

theorem test_set_iff (atoms : List ClassAtom) (s : Str) :
    Regex.test (.set false atoms) s = true ↔
      ∃ x ∈ s, (atoms.any fun a => a.accepts x) = true := by
  rw [test_unit_iff (r := .set false atoms) rfl]
  simp

theorem test_lookahead_set_iff (atoms : List ClassAtom) (s : Str) :
    Regex.test (.lookahead (.seq (.star .any) (.set false atoms))) s = true ↔
      ∃ x ∈ s, (atoms.any fun a => a.accepts x) = true := by
  rw [test_lookahead_iff (r := .set false atoms) rfl]
  simp

theorem lower_test (s : Str) :
    Regex.test (.set false [.range 0x61 0x7A]) s = s.any isLower := by
  rw [Bool.eq_iff_iff, test_set_iff, any_iff]
  simp [ClassAtom.accepts, isLower]

theorem upper_test (s : Str) :
    Regex.test (.set false [.range 0x41 0x5A]) s = s.any isUpper := by
  rw [Bool.eq_iff_iff, test_set_iff, any_iff]
  simp [ClassAtom.accepts, isUpper]

theorem digit_test (s : Str) :
    Regex.test (.set false [.digit]) s = s.any isDigit := by
  rw [Bool.eq_iff_iff, test_set_iff, any_iff]
  simp [ClassAtom.accepts, isDigit]

theorem special_test (s : Str) :
    Regex.test (.set false specialAtoms) s = s.any isSpecial := by
  rw [Bool.eq_iff_iff, test_set_iff, any_iff]
  simp only [special_accepts]

theorem lowerLookahead_test (s : Str) : lowerLookahead.test s = s.any isLower := by
  rw [Bool.eq_iff_iff, lowerLookahead, test_lookahead_set_iff, any_iff]
  simp [ClassAtom.accepts, isLower]

theorem upperLookahead_test (s : Str) : upperLookahead.test s = s.any isUpper := by
  rw [Bool.eq_iff_iff, upperLookahead, test_lookahead_set_iff, any_iff]
  simp [ClassAtom.accepts, isUpper]

theorem digitLookahead_test (s : Str) : digitLookahead.test s = s.any isDigit := by
  rw [Bool.eq_iff_iff, digitLookahead, test_lookahead_set_iff, any_iff]
  simp [ClassAtom.accepts, isDigit]

theorem specialLookahead_test (s : Str) : specialLookahead.test s = s.any isSpecial := by
  rw [Bool.eq_iff_iff, specialLookahead, test_lookahead_set_iff, any_iff]
  simp only [special_accepts]

theorem validatePassword_false_eq (p : Str) :
    validatePassword p false =
      if p = [] then some "Password is required"
      else if p.length < 6 then some "Password must be at least 6 characters long"
      else if p.length > 128 then some "Password is too long"
      else none := by
  cases p with
  | nil => simp [validatePassword, truthy]
  | cons x xs => simp [validatePassword, truthy]

theorem validatePassword_true_eq (p : Str) :
    validatePassword p true =
      if p = [] then some "Password is required"
      else if p.length < 6 then some "Password must be at least 6 characters long"
      else if p.length > 128 then some "Password is too long"
      else if p.any isLower = false then
        some "Password must contain at least one lowercase letter"
      else if p.any isUpper = false then
        some "Password must contain at least one uppercase letter"
      else if p.any isDigit = false then some "Password must contain at least one number"
      else if p.any isSpecial = false then
        some "Password must contain at least one special character"
      else none := by
  cases p with
  | nil => simp [validatePassword, truthy]
  | cons x xs =>
    simp only [validatePassword, truthy, lowerLookahead_test, upperLookahead_test,
      digitLookahead_test, specialLookahead_test]
    simp

/-- Claim C2: for every string `p`, `validatePassword p true` is `null` iff
`6 ≤ p.length ≤ 128` and `p` has a lowercase letter, an uppercase letter, a
digit and a special character; when the length rules pass, the one message
returned is that of the first missing class in the order lowercase, uppercase,
digit, special. The two sample values evaluate as stated. -/
theorem validatePassword_strict_spec :
    (∀ p : Str,
      (validatePassword p true = none ↔
        6 ≤ p.length ∧ p.length ≤ 128 ∧ p.any isLower = true ∧ p.any isUpper = true ∧
          p.any isDigit = true ∧ p.any isSpecial = true) ∧
      (validatePassword p true = some "Password must contain at least one lowercase letter" ↔
        6 ≤ p.length ∧ p.length ≤ 128 ∧ p.any isLower = false) ∧
      (validatePassword p true = some "Password must contain at least one uppercase letter" ↔
        6 ≤ p.length ∧ p.length ≤ 128 ∧ p.any isLower = true ∧ p.any isUpper = false) ∧
      (validatePassword p true = some "Password must contain at least one number" ↔
        6 ≤ p.length ∧ p.length ≤ 128 ∧ p.any isLower = true ∧ p.any isUpper = true ∧
          p.any isDigit = false) ∧
      (validatePassword p true = some "Password must contain at least one special character" ↔
        6 ≤ p.length ∧ p.length ≤ 128 ∧ p.any isLower = true ∧ p.any isUpper = true ∧
          p.any isDigit = true ∧ p.any isSpecial = false)) ∧
    validatePassword (js "abcdef") true =
      some "Password must contain at least one uppercase letter" ∧
    validatePassword (js "Abcdef1!") true = none := by
  refine ⟨?_, by decide, by decide⟩
  intro p
  rw [validatePassword_true_eq]
  by_cases h0 : p = []
  · subst h0
    simp
  have hpos : 0 < p.length := List.length_pos.2 h0
  by_cases h1 : p.length < 6
  · simp only [h0, h1, if_true, if_false]
    simp
    omega
  by_cases h2 : p.length > 128
  · simp only [h0, h1, h2, if_true, if_false]
    simp
    omega
  have h6 : 6 ≤ p.length := by omega
  have h128 : p.length ≤ 128 := by omega
  simp only [h0, h1, h2, if_false, h6, h128, true_and]
  cases p.any isLower <;> cases p.any isUpper <;> cases p.any isDigit <;>
    cases p.any isSpecial <;> simp

/-- Claim C3: for every string `p`, `validatePassword p false` is the Required
message iff `p` is empty, the TooShort message iff `1 ≤ p.length < 6`, the
TooLong message iff `p.length > 128`, and `null` iff `6 ≤ p.length ≤ 128`,
whatever the characters of `p`. The two sample values evaluate as stated. -/
theorem validatePassword_lenient_spec :
    (∀ p : Str,
      (validatePassword p false = some "Password is required" ↔ p = []) ∧
      (validatePassword p false = some "Password must be at least 6 characters long" ↔
        1 ≤ p.length ∧ p.length < 6) ∧
      (validatePassword p false = some "Password is too long" ↔ p.length > 128) ∧
      (validatePassword p false = none ↔ 6 ≤ p.length ∧ p.length ≤ 128)) ∧
    validatePassword (js "abc") false = some "Password must be at least 6 characters long" ∧
    validatePassword (js "abcdef") false = none := by
  refine ⟨?_, by decide, by decide⟩
  intro p
  rw [validatePassword_false_eq]
  by_cases h0 : p = []
  · subst h0
    simp
  have hpos : 0 < p.length := List.length_pos.2 h0
  by_cases h1 : p.length < 6
  · simp only [h0, h1, if_true, if_false]
    simp
    omega
  by_cases h2 : p.length > 128
  · simp only [h0, h1, h2, if_true, if_false]
    simp
    omega
  simp only [h0, h1, h2, if_false]
  simp
  omega

theorem passedChecks_eq (p : Str) : passedChecks p = passCount p := by
  simp only [passedChecks, checks, lower_test, upper_test, digit_test, special_test, passCount]
  by_cases h : 6 ≤ p.length <;> cases p.any isLower <;> cases p.any isUpper <;>
    cases p.any isDigit <;> cases p.any isSpecial <;> simp [h, List.filter]

/-- Claim C7: for every non-empty password `p`, the sign-up indicator shows a
strength determined by the number `n` of the five checks `p` passes: weak iff
`n ≤ 2`, medium iff `n` is 3 or 4, strong iff `n = 5`. -/
theorem strength_spec (p : Str) (hp : p ≠ []) :
    ∃ tier, PasswordStrengthIndicator false p = some tier ∧
      (tier = .weak ↔ passCount p ≤ 2) ∧
      (tier = .medium ↔ passCount p = 3 ∨ passCount p = 4) ∧
      (tier = .strong ↔ passCount p = 5) := by
  have ht : truthy p = true := (truthy_iff p).2 hp
  have hle : passCount p ≤ 5 := by
    unfold passCount
    split_ifs <;> omega
  refine ⟨strength p, by simp [PasswordStrengthIndicator, ht], ?_⟩
  unfold strength
  rw [passedChecks_eq]
  by_cases h2 : passCount p ≤ 2
  · simp [h2]
    omega
  · by_cases h4 : passCount p ≤ 4
    · simp [h2, h4]
      omega
    · simp [h2, h4]
      omega

/-- Claim C7 at the password `Abcdef1!`. -/
theorem strength_spec_witness :
    js "Abcdef1!" ≠ [] ∧
    ∃ tier, PasswordStrengthIndicator false (js "Abcdef1!") = some tier ∧
      (tier = .weak ↔ passCount (js "Abcdef1!") ≤ 2) ∧
      (tier = .medium ↔ passCount (js "Abcdef1!") = 3 ∨ passCount (js "Abcdef1!") = 4) ∧
      (tier = .strong ↔ passCount (js "Abcdef1!") = 5) :=
  ⟨by decide, strength_spec (js "Abcdef1!") (by decide)⟩

end Auth

/-! ## `trim` and `replace` -/

theorem replaceAllAux_set (atoms : List ClassAtom) (n : Nat) (s : Str) :
    replaceAllAux (.set false atoms) n [] 0 s =
      s.filter fun x => !(atoms.any fun a => a.accepts x) := by
  induction s with
  | nil => simp [replaceAllAux, Regex.ends, step1]
  | cons c cs ih =>
    by_cases h : (atoms.any fun a => a.accepts c) = true
    · simp [replaceAllAux, Regex.ends, step1, h, ih]
    · have h' : (atoms.any fun a => a.accepts c) = false := by simpa using h
      simp only [replaceAllAux, Regex.ends, step1, h', ih, bne_self_eq_false,
        Bool.false_eq_true, if_false, List.filter_cons, Bool.not_false, if_true]

theorem trimEnd_eq_rdropWhile (s : Str) : trimEnd s = s.rdropWhile isWhiteSpace := rfl

theorem noEdgeSpace_trim (s : Str) : noEdgeSpace (trim s) := by
  constructor
  · intro x hx
    obtain ⟨ys, hys⟩ := List.head?_eq_some_iff.1 hx
    obtain ⟨t, ht⟩ : trim s <+: trimStart s := List.rdropWhile_prefix isWhiteSpace (trimStart s)
    have h := List.head?_dropWhile_not isWhiteSpace s
    rw [hys] at ht
    simp only [trimStart] at ht
    rw [← ht] at h
    simpa using h
  · intro x hx
    obtain ⟨ys, hys⟩ := List.getLast?_eq_some_iff.1 hx
    have hne : (trimStart s).rdropWhile isWhiteSpace ≠ [] := by
      change trim s ≠ []
      rw [hys]
      simp
    have h := List.rdropWhile_last_not isWhiteSpace (trimStart s) hne
    have hl : ((trimStart s).rdropWhile isWhiteSpace).getLast hne = x := by
      have : (trimStart s).rdropWhile isWhiteSpace = ys ++ [x] := hys
      simp [this]
    rw [hl] at h
    simpa using h

theorem trim_eq_self {r : Str} (h : noEdgeSpace r) : trim r = r := by
  have h1 : trimStart r = r := by
    cases r with
    | nil => rfl
    | cons x xs =>
      have hx : isWhiteSpace x = false := h.1 x rfl
      simp [trimStart, hx]
  have h2 : r.rdropWhile isWhiteSpace = r := by
    rw [List.rdropWhile_eq_self_iff]
    intro hl
    have := h.2 (r.getLast hl) (List.getLast?_eq_getLast r hl)
    simp [this]
  rw [trim, h1]
  exact h2

theorem trim_eq_nil_of_all {s : Str} (h : ∀ x ∈ s, isWhiteSpace x = true) : trim s = [] := by
  have : trimStart s = [] := by
    simp only [trimStart, List.dropWhile_eq_nil_iff]
    exact h
  simp [trim, this, trimEnd]

namespace Auth

theorem sanitizeInput_eq (s : Str) : sanitizeInput s = (trim s).filter notAngle := by
  simp only [sanitizeInput, replaceAll, replaceAllAux_set]
  congr 1
  funext x
  simp [ClassAtom.accepts, notAngle, bne]

/-- Claim C5: for every string `s`, `sanitizeInput s` contains neither `<` nor
`>` and is exactly the code units of `trim s` other than `<` and `>`, in their
original order; it is empty whenever `s` consists only of white space. -/
theorem sanitizeInput_spec (s : Str) :
    0x3C ∉ sanitizeInput s ∧ 0x3E ∉ sanitizeInput s ∧
    sanitizeInput s = (trim s).filter notAngle ∧
    ((∀ x ∈ s, isWhiteSpace x = true) → sanitizeInput s = []) := by
  refine ⟨?_, ?_, sanitizeInput_eq s, ?_⟩
  · rw [sanitizeInput_eq]
    simp [List.mem_filter, notAngle]
  · rw [sanitizeInput_eq]
    simp [List.mem_filter, notAngle]
  · intro h
    rw [sanitizeInput_eq, trim_eq_nil_of_all h]
    rfl

/-- Claim C5 at the white-space-only input of a blank, a tab and a blank. -/
theorem sanitizeInput_spec_witness :
    (∀ x ∈ js " \t ", isWhiteSpace x = true) ∧ sanitizeInput (js " \t ") = [] :=
  ⟨by decide, (sanitizeInput_spec (js " \t ")).2.2.2 (by decide)⟩

end Auth

theorem mem_insertAt {p : Str} (i c : Nat) {x : Nat} (h : x ∈ p) : x ∈ insertAt p i c := by
  rw [← List.take_append_drop i p] at h
  simp only [insertAt, List.mem_append, List.mem_cons] at h ⊢
  tauto

theorem length_insertAt (p : Str) (i c : Nat) : (insertAt p i c).length = p.length + 1 := by
  have h := congrArg List.length (List.take_append_drop i p)
  simp only [List.length_append] at h
  simp only [insertAt, List.length_append, List.length_cons]
  omega

theorem any_insertAt (f : Nat → Bool) (p : Str) (i c : Nat) (h : p.any f = true) :
    (insertAt p i c).any f = true := by
  rw [List.any_eq_true] at h ⊢
  obtain ⟨x, hx, hf⟩ := h
  exact ⟨x, mem_insertAt i c hx, hf⟩

theorem filter_notAngle_noEdgeSpace {t : Str} (ht : noEdgeSpace t)
    (hfirst : t.head?.all notAngle = true) (hlast : t.getLast?.all notAngle = true) :
    noEdgeSpace (t.filter notAngle) := by
  constructor
  · intro x hx
    cases t with
    | nil => simp at hx
    | cons z t' =>
      have hz : notAngle z = true := by simpa using hfirst
      rw [List.filter_cons_of_pos hz] at hx
      have hzx : z = x := by simpa using hx
      subst hzx
      exact ht.1 _ rfl
  · intro x hx
    rcases List.eq_nil_or_concat t with rfl | ⟨t', y, rfl⟩
    · simp at hx
    · rw [List.concat_eq_append] at ht hlast hx
      have hy : notAngle y = true := by simpa using hlast
      have hf : List.filter notAngle (t' ++ [y]) = List.filter notAngle t' ++ [y] := by
        simp [List.filter_append, hy]
      rw [hf] at hx
      have hyx : y = x := by simpa using hx
      subst hyx
      exact ht.2 _ (by simp)

namespace Auth

/-- Claim C6 fails as stated: `sanitizeInput` maps `< a` to ` a`, which starts
with a blank, and a second application changes it again. -/
theorem sanitizeInput_edge_counterexample :
    sanitizeInput (js "< a") = js " a" ∧ ¬ noEdgeSpace (sanitizeInput (js "< a")) ∧
    sanitizeInput (sanitizeInput (js "< a")) ≠ sanitizeInput (js "< a") := by
  have h : sanitizeInput (js "< a") = [0x20, 0x61] := by decide
  refine ⟨by decide, ?_, by decide⟩
  rw [h]
  intro hn
  have := hn.1 0x20 rfl
  exact absurd this (by decide)

end Auth

theorem head?_filter_eq_find? (p : Nat → Bool) (l : Str) : (l.filter p).head? = l.find? p := by
  induction l with
  | nil => rfl
  | cons x xs ih =>
    by_cases h : p x = true
    · simp [List.filter_cons, List.find?_cons, h]
    · have h' : p x = false := by simpa using h
      simp [List.filter_cons, List.find?_cons, h', ih]

theorem getLast?_filter_eq_find? (p : Nat → Bool) (l : Str) :
    (l.filter p).getLast? = l.reverse.find? p := by
  rw [← head?_filter_eq_find?, List.filter_reverse, List.head?_reverse]

theorem option_all_iff (p : Nat → Bool) (o : Option Nat) :
    o.all p = true ↔ ∀ x, o = some x → p x = true := by
  cases o <;> simp [Option.all]

theorem mem_of_mem_trim {r : Str} {x : Nat} (h : x ∈ trim r) : x ∈ r := by
  have h1 : x ∈ trimStart r := (List.rdropWhile_prefix isWhiteSpace (trimStart r)).subset h
  exact (List.dropWhile_sublist isWhiteSpace).subset h1

theorem noEdgeSpace_of_trim_eq {r : Str} (h : trim r = r) : noEdgeSpace r := by
  have := noEdgeSpace_trim r
  rwa [h] at this

namespace Auth

/-- On a string without `<` and `>`, `sanitizeInput` is `trim`. -/
theorem sanitizeInput_sanitizeInput (s : Str) :
    sanitizeInput (sanitizeInput s) = trim (sanitizeInput s) := by
  rw [sanitizeInput_eq (sanitizeInput s), List.filter_eq_self]
  intro x hx
  have hx' := mem_of_mem_trim hx
  rw [sanitizeInput_eq, List.mem_filter] at hx'
  exact hx'.2

/-- Claim C6, amended: for every string `s`, `sanitizeInput s` has no white
space at its start or end exactly when the first and the last code unit of
`trim s` other than `<` and `>` are not white space, which holds in particular
when `s` contains no `<` and no `>`; and that is exactly when applying
`sanitizeInput` again changes nothing. -/
theorem sanitizeInput_edges_iff (s : Str) :
    (noEdgeSpace (sanitizeInput s) ↔
      ((trim s).find? notAngle).all (fun x => !isWhiteSpace x) = true ∧
        ((trim s).reverse.find? notAngle).all (fun x => !isWhiteSpace x) = true) ∧
    (sanitizeInput (sanitizeInput s) = sanitizeInput s ↔ noEdgeSpace (sanitizeInput s)) ∧
    ((∀ x ∈ s, notAngle x = true) → noEdgeSpace (sanitizeInput s)) := by
  have hedge : noEdgeSpace (sanitizeInput s) ↔
      ((trim s).find? notAngle).all (fun x => !isWhiteSpace x) = true ∧
        ((trim s).reverse.find? notAngle).all (fun x => !isWhiteSpace x) = true := by
    rw [sanitizeInput_eq, noEdgeSpace, head?_filter_eq_find?, getLast?_filter_eq_find?,
      option_all_iff, option_all_iff]
    simp
  refine ⟨hedge, ?_, ?_⟩
  · rw [sanitizeInput_sanitizeInput]
    exact ⟨noEdgeSpace_of_trim_eq, trim_eq_self⟩
  · intro hs
    have hf : (trim s).filter notAngle = trim s :=
      List.filter_eq_self.2 fun x hx => hs x (mem_of_mem_trim hx)
    rw [sanitizeInput_eq, hf]
    exact noEdgeSpace_trim s

/-- Claim C6, amended, at `<a@b.com>`, whose first and last code unit are
brackets, and at ` a b `, which has none. -/
theorem sanitizeInput_edges_iff_witness :
    sanitizeInput (js "<a@b.com>") = js "a@b.com" ∧
    noEdgeSpace (sanitizeInput (js "<a@b.com>")) ∧
    sanitizeInput (sanitizeInput (js "<a@b.com>")) = sanitizeInput (js "<a@b.com>") ∧
    noEdgeSpace (sanitizeInput (js " a b ")) :=
  ⟨by decide,
    (sanitizeInput_edges_iff (js "<a@b.com>")).1.2 (by decide),
    (sanitizeInput_edges_iff (js "<a@b.com>")).2.1.2
      ((sanitizeInput_edges_iff (js "<a@b.com>")).1.2 (by decide)),
    (sanitizeInput_edges_iff (js " a b ")).2.2 (by decide)⟩

theorem passCount_insertAt (p : Str) (i c : Nat) : passCount p ≤ passCount (insertAt p i c) := by
  unfold passCount
  have hl := length_insertAt p i c
  have h1 := any_insertAt isLower p i c
  have h2 := any_insertAt isUpper p i c
  have h3 := any_insertAt isDigit p i c
  have h4 := any_insertAt isSpecial p i c
  have e1 : (if p.any isLower = true then 1 else 0) ≤
      (if (insertAt p i c).any isLower = true then 1 else 0) := by
    split_ifs <;> simp_all
  have e2 : (if p.any isUpper = true then 1 else 0) ≤
      (if (insertAt p i c).any isUpper = true then 1 else 0) := by
    split_ifs <;> simp_all
  have e3 : (if p.any isDigit = true then 1 else 0) ≤
      (if (insertAt p i c).any isDigit = true then 1 else 0) := by
    split_ifs <;> simp_all
  have e4 : (if p.any isSpecial = true then 1 else 0) ≤
      (if (insertAt p i c).any isSpecial = true then 1 else 0) := by
    split_ifs <;> simp_all
  have e0 : (if 6 ≤ p.length then 1 else 0) ≤
      (if 6 ≤ (insertAt p i c).length then 1 else 0) := by
    split_ifs <;> omega
  omega

theorem strength_rank_mono {p q : Str} (h : passCount p ≤ passCount q) :
    (strength p).rank ≤ (strength q).rank := by
  unfold strength
  rw [passedChecks_eq, passedChecks_eq]
  split_ifs <;> simp [Strength.rank] <;> omega

/-- Claim C8: for every non-empty password `p`, every code unit `c` and every
index `i`, inserting `c` at `i` never lowers the strength shown (in the order
weak < medium < strong), and every one of the five checks that `p` passes is
still passed after the insertion. -/
theorem strength_monotone (p : Str) (i c : Nat) (hp : p ≠ []) :
    (∃ a b, PasswordStrengthIndicator false p = some a ∧
      PasswordStrengthIndicator false (insertAt p i c) = some b ∧ a.rank ≤ b.rank) ∧
    ∀ ab ∈ (checks p).zip (checks (insertAt p i c)), ab.1 = true → ab.2 = true := by
  have hq : insertAt p i c ≠ [] := by simp [insertAt]
  constructor
  · refine ⟨strength p, strength (insertAt p i c), ?_, ?_,
      strength_rank_mono (passCount_insertAt p i c)⟩
    · simp [PasswordStrengthIndicator, (truthy_iff p).2 hp]
    · simp [PasswordStrengthIndicator, (truthy_iff _).2 hq]
  · have hl := length_insertAt p i c
    have h1 := any_insertAt isLower p i c
    have h2 := any_insertAt isUpper p i c
    have h3 := any_insertAt isDigit p i c
    have h4 := any_insertAt isSpecial p i c
    intro ab hab
    simp only [checks, lower_test, upper_test, digit_test, special_test, List.zip_cons_cons,
      List.zip_nil_right, List.mem_cons, List.not_mem_nil, or_false] at hab
    rcases hab with rfl | rfl | rfl | rfl | rfl
    · simp only [decide_eq_true_eq]
      omega
    · exact h1
    · exact h2
    · exact h3
    · exact h4

/-- Claim C8 at the password `abcdef` with the digit `7` inserted at index 3. -/
theorem strength_monotone_witness :
    js "abcdef" ≠ [] ∧
    (∃ a b, PasswordStrengthIndicator false (js "abcdef") = some a ∧
      PasswordStrengthIndicator false (insertAt (js "abcdef") 3 0x37) = some b ∧
      a.rank ≤ b.rank) ∧
    ∀ ab ∈ (checks (js "abcdef")).zip (checks (insertAt (js "abcdef") 3 0x37)),
      ab.1 = true → ab.2 = true :=
  ⟨by decide, strength_monotone (js "abcdef") 3 0x37 (by decide)⟩

end Auth

namespace Dashboard

/-- Claim C10: for all strings, `validateEditForm` returns `true` iff the
create-form `validateForm`, run on the same title, description and status (and
any priority), sets no message for title, for description and for status. -/
theorem validateEditForm_iff (title description status priority : Str) :
    validateEditForm title description status = true ↔
      (validateForm title description status priority).1.title = "" ∧
      (validateForm title description status priority).1.description = "" ∧
      (validateForm title description status priority).1.status = "" := by
  cases h1 : trim title <;> cases h2 : trim description <;> cases status <;> cases priority <;>
    simp [validateForm, validateEditForm, truthy, h1, h2]

theorem split_ne_nil (sep : Nat) (s : Str) : split sep s ≠ [] := by
  cases s with
  | nil => simp [split]
  | cons c cs =>
    simp only [split]
    split_ifs
    · simp
    · cases split sep cs <;> simp

/-- Claim C4, evaluated on the code: the row built on task creation keeps the
blank pieces of the tags input. The input `, work ,, urgent,` stores five tags,
three of them empty; the empty input stores one empty tag; and no input at all
stores the empty sequence. -/
theorem insertRow_tags_keep_blanks (userId title description status dueDate priority : Str) :
    (insertRow userId title description status (js ", work ,, urgent,") dueDate priority).extras.tags
      = [js "", js "work", js "", js "urgent", js ""] ∧
    (insertRow userId title description status (js "") dueDate priority).extras.tags = [js ""] ∧
    (insertRow userId title description status (js " , ") dueDate priority).extras.tags
      = [js "", js ""] ∧
    ∀ tags, (insertRow userId title description status tags dueDate priority).extras.tags ≠ [] := by
  refine ⟨by simp only [insertRow]; decide, by simp only [insertRow]; decide,
    by simp only [insertRow]; decide, ?_⟩
  intro tags
  simp only [insertRow, ne_eq, List.map_eq_nil_iff]
  exact split_ne_nil _ _

end Dashboard
namespace Auth

/-! ## `handleSubmit` -/

theorem validateEmail_truthy (e : Str) :
    (if truthyMsg (validateEmail e) = true then validateEmail e else none) = validateEmail e := by
  unfold validateEmail
  split_ifs <;> simp_all [truthyMsg]

theorem validatePassword_truthy (p : Str) (strict : Bool) :
    (if truthyMsg (validatePassword p strict) = true then validatePassword p strict else none) =
      validatePassword p strict := by
  unfold validatePassword
  split_ifs <;> simp_all [truthyMsg]

theorem validateForm_eq (s : State) :
    validateForm s =
      ([.setValidationErrors
          { email := validateEmail s.email
            password := validatePassword s.password (!s.isLogin) }],
        validated s) := by
  simp only [validateForm, validateEmail_truthy, validatePassword_truthy, validated]

theorem handleSubmit_of_invalid (env : Env) (s : State) (h : validated s = false) :
    handleSubmit env s =
      [.preventDefault, .setError none, .setSuccess none,
       .setValidationErrors
          { email := validateEmail s.email
            password := validatePassword s.password (!s.isLogin) }] := by
  simp [handleSubmit, validateForm_eq, h]

theorem handleSubmit_of_valid (env : Env) (s : State) (h : validated s = true) :
    handleSubmit env s =
      [.preventDefault, .setError none, .setSuccess none,
       .setValidationErrors { email := none, password := none }, .setLoading true] ++
        submitAttempt env s ++ [.setLoading false] := by
  have h' := h
  simp only [validated, Bool.and_eq_true, Option.isNone_iff_eq_none] at h'
  simp [handleSubmit, validateForm_eq, h, h'.1, h'.2]

theorem validated_eq_true_iff (s : State) :
    validated s = true ↔
      validateEmail s.email = none ∧ validatePassword s.password (!s.isLogin) = none := by
  simp [validated, Option.isNone_iff_eq_none]

theorem providerCall_isProviderCall (env : Env) (s : State) :
    (providerCall env s).isProviderCall = true := by
  unfold providerCall
  split_ifs <;> rfl

theorem showProviderError_eq (m : String) : showProviderError m = showError (userFacingText m) := by
  unfold showProviderError userFacingText
  split_ifs <;> rfl

/-- The actions of the `try` block after the provider call, by outcome. -/
theorem submitAttempt_eq (env : Env) (s : State) :
    submitAttempt env s =
      providerCall env s ::
        match providerResult env s with
        | .error m => [.setError (some (userFacingText m)), .setTimeout .clearError 5000]
        | .ok =>
          if s.isLogin then
            [.setSuccess (some "Login successful! Redirecting..."),
             .setTimeout .clearSuccess 4000, .setTimeout (.navigate "/dashboard") 1500]
          else
            [.setSuccess (some "Check your email to confirm signup!"),
             .setTimeout .clearSuccess 4000, .setEmail [], .setPassword []]
        | .throws =>
          [.consoleError, .setError (some "An unexpected error occurred. Please try again."),
           .setTimeout .clearError 5000] := by
  unfold submitAttempt
  cases providerResult env s with
  | ok => cases s.isLogin <;> simp [showSuccess]
  | error m => simp [showProviderError_eq, showError]
  | throws => simp [showError]

theorem providerCall_cases (env : Env) (s : State) :
    providerCall env s = .signInWithPassword (env.toLowerCase s.email) s.password ∨
      providerCall env s = .signUp (env.toLowerCase s.email) s.password := by
  unfold providerCall
  split_ifs
  · exact Or.inl rfl
  · exact Or.inr rfl

theorem submitAttempt_providerCalls (env : Env) (s : State) :
    (submitAttempt env s).filter Action.isProviderCall = [providerCall env s] := by
  rw [submitAttempt_eq]
  rcases providerCall_cases env s with h | h <;> rw [h] <;>
    cases providerResult env s <;> cases s.isLogin <;>
      simp [List.filter, Action.isProviderCall]

/-- Claim C11: for every form state of the authentication screen, if
`validateEmail` or `validatePassword` (strict exactly in sign-up mode) returns
an error, `handleSubmit` calls neither `signInWithPassword` nor `signUp`, never
sets `loading` to `true`, and stores in `validationErrors` exactly the failing
fields with their messages; when both validators return `null` the provider is
called exactly once. -/
theorem handleSubmit_validation (env : Env) (s : State) :
    ((validateEmail s.email ≠ none ∨ validatePassword s.password (!s.isLogin) ≠ none) →
      (∀ a ∈ handleSubmit env s, a.isProviderCall = false) ∧
      Action.setLoading true ∉ handleSubmit env s ∧
      (run s (handleSubmit env s)).loading = s.loading ∧
      (run s (handleSubmit env s)).validationErrors =
        { email := validateEmail s.email
          password := validatePassword s.password (!s.isLogin) }) ∧
    ((validateEmail s.email = none ∧ validatePassword s.password (!s.isLogin) = none) →
      ((handleSubmit env s).filter Action.isProviderCall).length = 1) := by
  constructor
  · intro h
    have hv : validated s = false := by
      rw [← Bool.not_eq_true, validated_eq_true_iff]
      tauto
    rw [handleSubmit_of_invalid env s hv]
    refine ⟨?_, ?_, ?_, ?_⟩
    · intro a ha
      simp only [List.mem_cons, List.mem_singleton, List.not_mem_nil, or_false] at ha
      rcases ha with rfl | rfl | rfl | rfl <;> rfl
    · simp
    · simp [run, Action.apply]
    · simp [run, Action.apply]
  · intro h
    have hv : validated s = true := (validated_eq_true_iff s).2 h
    rw [handleSubmit_of_valid env s hv]
    simp only [List.filter_append, submitAttempt_providerCalls]
    simp [List.filter, Action.isProviderCall]

/-- Claim C11 at the email `a@b`, which fails validation, and at `a@b.com`
with the password `abcdef` in login mode, which passes. -/
theorem handleSubmit_validation_witness :
    (validateEmail (State.sample true "a@b" "abcdef").email ≠ none ∨
      validatePassword (State.sample true "a@b" "abcdef").password
        (!(State.sample true "a@b" "abcdef").isLogin) ≠ none) ∧
    Action.setLoading true ∉
      handleSubmit (Env.sample .ok .ok) (State.sample true "a@b" "abcdef") ∧
    ((handleSubmit (Env.sample .ok .ok) (State.sample true "a@b.com" "abcdef")).filter
      Action.isProviderCall).length = 1 :=
  ⟨by decide,
    ((handleSubmit_validation (Env.sample .ok .ok) (State.sample true "a@b" "abcdef")).1
      (by decide)).2.1,
    (handleSubmit_validation (Env.sample .ok .ok) (State.sample true "a@b.com" "abcdef")).2
      (by decide)⟩

/-- The whole handler once validation passes, by outcome of the provider. -/
theorem handleSubmit_valid_eq (env : Env) (s : State) (hv : validated s = true) :
    handleSubmit env s =
      [.preventDefault, .setError none, .setSuccess none,
       .setValidationErrors { email := none, password := none }, .setLoading true,
       providerCall env s] ++
        (match providerResult env s with
          | .error m => [.setError (some (userFacingText m)), .setTimeout .clearError 5000]
          | .ok =>
            if s.isLogin then
              [.setSuccess (some "Login successful! Redirecting..."),
               .setTimeout .clearSuccess 4000, .setTimeout (.navigate "/dashboard") 1500]
            else
              [.setSuccess (some "Check your email to confirm signup!"),
               .setTimeout .clearSuccess 4000, .setEmail [], .setPassword []]
          | .throws =>
            [.consoleError,
             .setError (some "An unexpected error occurred. Please try again."),
             .setTimeout .clearError 5000]) ++
        [.setLoading false] := by
  rw [handleSubmit_of_valid env s hv, submitAttempt_eq]
  generalize providerResult env s = r
  cases r <;> simp

theorem userFacingText_ne_empty (m : String) (hm : m ≠ "") : userFacingText m ≠ "" := by
  unfold userFacingText
  split_ifs
  · decide
  · decide
  · decide
  · exact hm

theorem handleSubmit_error_state (env : Env) (s : State) (m : String)
    (hv : validated s = true) (hr : providerResult env s = .error m) :
    (run s (handleSubmit env s)).error = some (userFacingText m) ∧
      (run s (handleSubmit env s)).success = none := by
  rw [handleSubmit_valid_eq env s hv, hr]
  rcases providerCall_cases env s with h | h <;> rw [h] <;> simp [run, Action.apply]

/-- Claim C12 fails as stated: when the provider rejects a sign-in with an
empty message, `handleSubmit` stores the empty string as the error and the
screen renders no error alert (and no success alert): the failure is not
shown. -/
theorem handleSubmit_empty_message_counterexample :
    validated (State.sample true "a@b.com" "abcdef") = true ∧
    providerResult (Env.sample (.error "") .ok) (State.sample true "a@b.com" "abcdef") =
      .error "" ∧
    (run (State.sample true "a@b.com" "abcdef")
      (handleSubmit (Env.sample (.error "") .ok)
        (State.sample true "a@b.com" "abcdef"))).error = some "" ∧
    (run (State.sample true "a@b.com" "abcdef")
      (handleSubmit (Env.sample (.error "") .ok)
        (State.sample true "a@b.com" "abcdef"))).errorAlert = none ∧
    (run (State.sample true "a@b.com" "abcdef")
      (handleSubmit (Env.sample (.error "") .ok)
        (State.sample true "a@b.com" "abcdef"))).successAlert = none := by
  decide

/-- Claim C12, amended: when the provider answers the call of `handleSubmit`
with an error of message `m`, the error alert displayed is the fixed
invalid-credentials text for `Invalid login credentials`, the fixed
account-exists text for `User already registered`, the fixed rate-limit text for
`Email rate limit exceeded`, and `m` itself for every other non-empty `m`; for
the empty `m` the empty string is stored and no alert is displayed. In every
case `setError` is called with the text and its expiry is scheduled after 5
seconds, and no success notification and no navigation is produced. -/
theorem handleSubmit_provider_error (env : Env) (s : State) (m : String)
    (hv : validated s = true) (hr : providerResult env s = .error m) :
    (m = "Invalid login credentials" →
      (run s (handleSubmit env s)).errorAlert =
        some "Invalid email or password. Please check your credentials.") ∧
    (m = "User already registered" →
      (run s (handleSubmit env s)).errorAlert =
        some "An account with this email already exists. Please sign in instead.") ∧
    (m = "Email rate limit exceeded" →
      (run s (handleSubmit env s)).errorAlert =
        some "Too many requests. Please wait a moment before trying again.") ∧
    (m ≠ "Invalid login credentials" → m ≠ "User already registered" →
      m ≠ "Email rate limit exceeded" → m ≠ "" →
      (run s (handleSubmit env s)).errorAlert = some m) ∧
    (m = "" →
      (run s (handleSubmit env s)).error = some "" ∧
      (run s (handleSubmit env s)).errorAlert = none) ∧
    (∃ text, Action.setError (some text) ∈ handleSubmit env s ∧
      (run s (handleSubmit env s)).error = some text) ∧
    Action.setTimeout .clearError 5000 ∈ handleSubmit env s ∧
    (run s (handleSubmit env s)).success = none ∧
    (run s (handleSubmit env s)).successAlert = none ∧
    (∀ text, Action.setSuccess (some text) ∉ handleSubmit env s) ∧
    (∀ a ∈ handleSubmit env s, a.isNavigation = false) := by
  obtain ⟨herr, hsucc⟩ := handleSubmit_error_state env s m hv hr
  have halert : m ≠ "" → (run s (handleSubmit env s)).errorAlert = some (userFacingText m) := by
    intro hm
    have := userFacingText_ne_empty m hm
    simp [State.errorAlert, herr, truthyMsg, this]
  refine ⟨?_, ?_, ?_, ?_, ?_, ?_, ?_, hsucc, ?_, ?_, ?_⟩
  · rintro rfl
    rw [halert (by decide)]
    rfl
  · rintro rfl
    rw [halert (by decide)]
    rfl
  · rintro rfl
    rw [halert (by decide)]
    rfl
  · intro h1 h2 h3 h4
    rw [halert h4]
    simp [userFacingText, h1, h2, h3]
  · rintro rfl
    refine ⟨herr, ?_⟩
    simp [State.errorAlert, herr, truthyMsg, userFacingText]
  · refine ⟨userFacingText m, ?_, herr⟩
    rw [handleSubmit_valid_eq env s hv, hr]
    simp
  · rw [handleSubmit_valid_eq env s hv, hr]
    simp
  · simp [State.successAlert, hsucc, truthyMsg]
  · intro text
    rw [handleSubmit_valid_eq env s hv, hr]
    rcases providerCall_cases env s with h | h <;> rw [h] <;> simp
  · intro a ha
    have hall : (handleSubmit env s).all (fun a => !a.isNavigation) = true := by
      rw [handleSubmit_valid_eq env s hv, hr]
      rcases providerCall_cases env s with h | h <;> rw [h] <;> simp [Action.isNavigation]
    simpa using List.all_eq_true.1 hall a ha

/-- Claim C12, amended, at a sign-up that the provider rejects with
`User already registered`. -/
theorem handleSubmit_provider_error_witness :
    validated (State.sample false "a@b.com" "Abcdef1!") = true ∧
    providerResult (Env.sample .ok (.error "User already registered"))
      (State.sample false "a@b.com" "Abcdef1!") = .error "User already registered" ∧
    (run (State.sample false "a@b.com" "Abcdef1!")
      (handleSubmit (Env.sample .ok (.error "User already registered"))
        (State.sample false "a@b.com" "Abcdef1!"))).errorAlert =
      some "An account with this email already exists. Please sign in instead." :=
  ⟨by decide, by decide,
    (handleSubmit_provider_error (Env.sample .ok (.error "User already registered"))
      (State.sample false "a@b.com" "Abcdef1!") "User already registered"
      (by decide) (by decide)).2.1 rfl⟩

theorem handleSubmit_any_navigation (env : Env) (s : State) :
    (handleSubmit env s).any Action.isNavigation =
      (validated s && s.isLogin && decide (providerResult env s = .ok)) := by
  cases hv : validated s with
  | false =>
    rw [handleSubmit_of_invalid env s hv]
    simp [Action.isNavigation]
  | true =>
    rw [handleSubmit_valid_eq env s hv]
    rcases providerCall_cases env s with h | h <;> rw [h] <;>
      cases providerResult env s <;> cases s.isLogin <;> simp [Action.isNavigation]

/-- Claim C13: after a successful provider call, sign-in mode shows the
success notification, schedules the navigation to `/dashboard` after 1500 ms
and leaves email and password unchanged; sign-up mode shows the confirm-by-email
notification, resets email and password to the empty string and schedules no
navigation. A navigation is scheduled exactly when validation passed, the mode
is sign-in and the provider call succeeded. -/
theorem handleSubmit_success (env : Env) (s : State) :
    ((∃ a ∈ handleSubmit env s, a.isNavigation = true) ↔
      validated s = true ∧ s.isLogin = true ∧ providerResult env s = .ok) ∧
    (validated s = true → providerResult env s = .ok → s.isLogin = true →
      (run s (handleSubmit env s)).success = some "Login successful! Redirecting..." ∧
      Action.setTimeout .clearSuccess 4000 ∈ handleSubmit env s ∧
      (handleSubmit env s).filter Action.isNavigation =
        [.setTimeout (.navigate "/dashboard") 1500] ∧
      (run s (handleSubmit env s)).email = s.email ∧
      (run s (handleSubmit env s)).password = s.password) ∧
    (validated s = true → providerResult env s = .ok → s.isLogin = false →
      (run s (handleSubmit env s)).success = some "Check your email to confirm signup!" ∧
      Action.setTimeout .clearSuccess 4000 ∈ handleSubmit env s ∧
      (run s (handleSubmit env s)).email = [] ∧
      (run s (handleSubmit env s)).password = [] ∧
      ∀ a ∈ handleSubmit env s, a.isNavigation = false) := by
  refine ⟨?_, ?_, ?_⟩
  · have h := handleSubmit_any_navigation env s
    rw [Bool.eq_iff_iff] at h
    simpa [List.any_eq_true, and_assoc] using h
  · intro hv hr hl
    rw [handleSubmit_valid_eq env s hv, hr]
    simp only [providerCall, hl, if_true]
    simp [run, Action.apply, List.filter, Action.isNavigation]
  · intro hv hr hl
    have hnav : (handleSubmit env s).any Action.isNavigation = false := by
      rw [handleSubmit_any_navigation, hl]
      simp
    rw [handleSubmit_valid_eq env s hv, hr] at hnav ⊢
    simp only [providerCall, hl] at hnav ⊢
    refine ⟨by simp [run, Action.apply], by simp, by simp [run, Action.apply],
      by simp [run, Action.apply], ?_⟩
    intro a ha
    rw [List.any_eq_false] at hnav
    simpa using hnav a ha

/-- Claim C13 at a successful sign-in and at a successful sign-up. -/
theorem handleSubmit_success_witness :
    (run (State.sample true "a@b.com" "abcdef")
      (handleSubmit (Env.sample .ok .ok) (State.sample true "a@b.com" "abcdef"))).success =
      some "Login successful! Redirecting..." ∧
    (run (State.sample false "a@b.com" "Abcdef1!")
      (handleSubmit (Env.sample .ok .ok) (State.sample false "a@b.com" "Abcdef1!"))).email
      = [] :=
  ⟨((handleSubmit_success (Env.sample .ok .ok) (State.sample true "a@b.com" "abcdef")).2.1
      (by decide) (by decide) (by decide)).1,
    ((handleSubmit_success (Env.sample .ok .ok) (State.sample false "a@b.com" "Abcdef1!")).2.2
      (by decide) (by decide) (by decide)).2.2.1⟩

/-- Claim C14: for every form state that passes validation, when the
provider call throws, `handleSubmit` catches the exception (it logs it and runs
on to its `finally` block), shows the generic error notification, shows no
success notification and schedules no navigation; and whatever the outcome of
the provider call (success, error, exception), `loading` is `false` when the
handler finishes. -/
theorem handleSubmit_exception (env : Env) (s : State) (hv : validated s = true) :
    (providerResult env s = .throws →
      (run s (handleSubmit env s)).error =
        some "An unexpected error occurred. Please try again." ∧
      Action.setTimeout .clearError 5000 ∈ handleSubmit env s ∧
      Action.consoleError ∈ handleSubmit env s ∧
      (run s (handleSubmit env s)).success = none ∧
      (∀ text, Action.setSuccess (some text) ∉ handleSubmit env s) ∧
      ∀ a ∈ handleSubmit env s, a.isNavigation = false) ∧
    (run s (handleSubmit env s)).loading = false ∧
    (handleSubmit env s).getLast? = some (.setLoading false) := by
  refine ⟨?_, ?_, ?_⟩
  · intro hr
    have hnav : (handleSubmit env s).any Action.isNavigation = false := by
      rw [handleSubmit_any_navigation, hr]
      simp
    rw [handleSubmit_valid_eq env s hv, hr] at hnav ⊢
    refine ⟨?_, by simp, by simp, ?_, ?_, ?_⟩
    · rcases providerCall_cases env s with h | h <;> rw [h] <;> simp [run, Action.apply]
    · rcases providerCall_cases env s with h | h <;> rw [h] <;> simp [run, Action.apply]
    · intro text
      rcases providerCall_cases env s with h | h <;> rw [h] <;> simp
    · intro a ha
      rw [List.any_eq_false] at hnav
      simpa using hnav a ha
  · rw [handleSubmit_of_valid env s hv, run, List.foldl_append, List.foldl_append]
    simp [Action.apply]
  · rw [handleSubmit_of_valid env s hv, List.getLast?_append]
    rfl

/-- Claim C14 at a sign-in whose provider call throws. -/
theorem handleSubmit_exception_witness :
    validated (State.sample true "a@b.com" "abcdef") = true ∧
    providerResult (Env.sample .throws .ok) (State.sample true "a@b.com" "abcdef") = .throws ∧
    (run (State.sample true "a@b.com" "abcdef")
      (handleSubmit (Env.sample .throws .ok) (State.sample true "a@b.com" "abcdef"))).error =
      some "An unexpected error occurred. Please try again." ∧
    (run (State.sample true "a@b.com" "abcdef")
      (handleSubmit (Env.sample .throws .ok) (State.sample true "a@b.com" "abcdef"))).loading =
      false :=
  ⟨by decide, by decide,
    ((handleSubmit_exception (Env.sample .throws .ok) (State.sample true "a@b.com" "abcdef")
      (by decide)).1 (by decide)).1,
    (handleSubmit_exception (Env.sample .throws .ok) (State.sample true "a@b.com" "abcdef")
      (by decide)).2.1⟩

end Auth
namespace Dashboard

/-! ## The handlers of the dashboard -/

theorem validateForm_value (title description status priority : Str) :
    validateForm title description status priority =
      ({ title := if trim title = [] then "Title is required" else ""
         description := if trim description = [] then "Description is required" else ""
         status := if status = [] then "Status is required" else ""
         priority := if priority = [] then "Priority is required" else "" },
        truthy (trim title) && truthy (trim description) && truthy status && truthy priority) := by
  cases h1 : trim title <;> cases h2 : trim description <;> cases status <;> cases priority <;>
    simp [validateForm, truthy, h1, h2]

theorem truthy_eq_true_iff (s : Str) : truthy s = true ↔ s ≠ [] := by
  cases s <;> simp [truthy]

/-- On the values the selects can hold, empty and blank after trimming
coincide. -/
theorem options_trim :
    (∀ o ∈ statusOptions, (trim o = [] ↔ o = [])) ∧
      (∀ o ∈ priorityOptions, (trim o = [] ↔ o = [])) := by
  decide

/-- Claim C9: for every title and description, and every status and priority
the selects of the create form can hold, the create-form validator sets the
Required message of a field iff that field is empty or blank after trimming,
the empty message otherwise, and returns `true` iff none of the four fields is
empty or blank after trimming. -/
theorem validateForm_required (title description status priority : Str)
    (hs : status ∈ statusOptions) (hp : priority ∈ priorityOptions) :
    (validateForm title description status priority).1 =
      { title := if trim title = [] then "Title is required" else ""
        description := if trim description = [] then "Description is required" else ""
        status := if trim status = [] then "Status is required" else ""
        priority := if trim priority = [] then "Priority is required" else "" } ∧
    ((validateForm title description status priority).2 = true ↔
      trim title ≠ [] ∧ trim description ≠ [] ∧ trim status ≠ [] ∧ trim priority ≠ []) := by
  have h1 := options_trim.1 status hs
  have h2 := options_trim.2 priority hp
  rw [validateForm_value]
  simp only [h1, h2, Bool.and_eq_true, truthy_eq_true_iff, ne_eq, and_assoc, true_and]

/-- Claim C9 at the title `Buy milk`, a description of two blanks, the status
`pending` and no priority chosen. -/
theorem validateForm_required_witness :
    js "pending" ∈ statusOptions ∧ js "" ∈ priorityOptions ∧
    (validateForm (js "Buy milk") (js "  ") (js "pending") (js "")).1 =
      { title := "", description := "Description is required", status := "",
        priority := "Priority is required" } :=
  ⟨by decide, by decide,
    (validateForm_required (js "Buy milk") (js "  ") (js "pending") (js "")
      (by decide) (by decide)).1.trans (by decide)⟩

/-- The actions of `fetchTasks`, by the answers it gets. -/
theorem fetchTasks_eq (env : Env) (s : State) :
    fetchTasks env s =
      match env.getUser with
      | .error _ =>
        [.setLoading true, .getUser,
         .setAlert (some { message := "Failed to fetch user data", type := "error" }),
         .setTimeout .clearAlert 4000]
      | .ok user =>
        match env.select user.id
            (if s.statusFilter != js "all" then some s.statusFilter else none) with
        | .error _ =>
          [.setLoading true, .getUser, .setUser (some user),
           .select user.id (if s.statusFilter != js "all" then some s.statusFilter else none),
           .setAlert (some { message := "Error fetching tasks", type := "error" }),
           .setTimeout .clearAlert 4000, .setLoading false]
        | .ok data =>
          [.setLoading true, .getUser, .setUser (some user),
           .select user.id (if s.statusFilter != js "all" then some s.statusFilter else none),
           .setTasks data, .setLoading false] := by
  unfold fetchTasks fetchTasksRest fetchTasksStart
  cases env.getUser with
  | error m => simp [showAlert]
  | ok user =>
    simp only []
    generalize env.select user.id
      (if s.statusFilter != js "all" then some s.statusFilter else none) = r
    cases r <;> simp [showAlert]

theorem fetchTasks_any_isFetch (env : Env) (s : State) :
    (fetchTasks env s).any Action.isFetch = true := by
  unfold fetchTasks fetchTasksStart
  simp [Action.isFetch]

theorem fetchTasks_no_mutation (env : Env) (s : State) :
    (fetchTasks env s).all
      (fun a => !a.isInsert && !a.isUpdate && !a.isDelete) = true := by
  rw [fetchTasks_eq]
  cases env.getUser with
  | error m => simp [Action.isInsert, Action.isUpdate, Action.isDelete]
  | ok user =>
    simp only []
    generalize env.select user.id
      (if s.statusFilter != js "all" then some s.statusFilter else none) = r
    cases r <;> simp [Action.isInsert, Action.isUpdate, Action.isDelete]

/-- Claim C15: for every create-form state whose description is empty or
blank while title, status and priority are valid, `handleCreateTask` issues no
insert, leaves the form fields and the task list unchanged, and stores an
`errors` map whose only non-empty entry is the Required message under
description. -/
theorem handleCreateTask_blank_description (env : Env) (s : State)
    (hd : trim s.description = []) (ht : trim s.title ≠ []) (hs : s.status ≠ [])
    (hp : s.priority ≠ []) :
    (∀ a ∈ handleCreateTask env s, a.isInsert = false) ∧
    (run s (handleCreateTask env s)).title = s.title ∧
    (run s (handleCreateTask env s)).description = s.description ∧
    (run s (handleCreateTask env s)).status = s.status ∧
    (run s (handleCreateTask env s)).tags = s.tags ∧
    (run s (handleCreateTask env s)).dueDate = s.dueDate ∧
    (run s (handleCreateTask env s)).priority = s.priority ∧
    (run s (handleCreateTask env s)).tasks = s.tasks ∧
    (run s (handleCreateTask env s)).errors =
      { title := "", description := "Description is required", status := "", priority := "" } := by
  have h : handleCreateTask env s =
      [.preventDefault,
       .setErrors
         { title := "", description := "Description is required", status := "", priority := "" },
       .setAlert (some { message := "Please fill all required fields", type := "error" }),
       .setTimeout .clearAlert 4000] := by
    simp [handleCreateTask, validateForm_value, hd, ht, hs, hp, truthy, showAlert]
  rw [h]
  refine ⟨?_, by simp [run, Action.apply], by simp [run, Action.apply],
    by simp [run, Action.apply], by simp [run, Action.apply], by simp [run, Action.apply],
    by simp [run, Action.apply], by simp [run, Action.apply], by simp [run, Action.apply]⟩
  intro a ha
  simp only [List.mem_cons, List.mem_singleton, List.not_mem_nil, or_false] at ha
  rcases ha with rfl | rfl | rfl | rfl <;> rfl

/-- Claim C15 at the title `t`, a description of two blanks, the status
`pending` and the priority `High`. -/
theorem handleCreateTask_blank_description_witness :
    trim (js "  ") = [] ∧
    (run { State.init with title := js "t", description := js "  ", priority := js "High" }
      (handleCreateTask (Env.sample (.error "") (.ok []) none)
        { State.init with title := js "t", description := js "  ", priority := js "High" })).errors
      = { title := "", description := "Description is required", status := "", priority := "" } :=
  ⟨by decide,
    (handleCreateTask_blank_description (Env.sample (.error "") (.ok []) none)
      { State.init with title := js "t", description := js "  ", priority := js "High" }
      (by decide) (by decide) (by decide) (by decide)).2.2.2.2.2.2.2.2⟩

/-- Claim C16: for every edit state that passes `validateEditForm`, with
`task` the task being edited, `handleUpdateTask` issues exactly one update, on
the row of id `task.id`, whose payload has exactly the keys `title`,
`description` and `status` (so neither `extras` nor `user_id` nor `id` is
written); and when the store reports an error, `editingTask`, `editTitle`,
`editDescription` and `editStatus` are unchanged and no refetch is issued. -/
theorem handleUpdateTask_frame (env : Env) (s : State) (task : StoredTask)
    (hv : validateEditForm s.editTitle s.editDescription s.editStatus = true)
    (he : s.editingTask = some task) :
    (handleUpdateTask env s).filter Action.isUpdate =
      [.update [("title", s.editTitle), ("description", s.editDescription),
        ("status", s.editStatus)] task.id] ∧
    (env.update [("title", s.editTitle), ("description", s.editDescription),
        ("status", s.editStatus)] task.id ≠ none →
      (run s (handleUpdateTask env s)).editingTask = s.editingTask ∧
      (run s (handleUpdateTask env s)).editTitle = s.editTitle ∧
      (run s (handleUpdateTask env s)).editDescription = s.editDescription ∧
      (run s (handleUpdateTask env s)).editStatus = s.editStatus ∧
      ∀ a ∈ handleUpdateTask env s, a.isFetch = false) := by
  have hf := fetchTasks_no_mutation env s
  have hfu : (fetchTasks env s).filter Action.isUpdate = [] := by
    rw [List.filter_eq_nil_iff]
    intro a ha
    have := List.all_eq_true.1 hf a ha
    simp only [Bool.and_eq_true, Bool.not_eq_true'] at this
    simp [this.1.2]
  constructor
  · cases hupd : env.update [("title", s.editTitle), ("description", s.editDescription),
        ("status", s.editStatus)] task.id with
    | some e =>
      simp [handleUpdateTask, hv, he, hupd, showAlert, List.filter, Action.isUpdate]
    | none =>
      have h : handleUpdateTask env s =
          [.update [("title", s.editTitle), ("description", s.editDescription),
            ("status", s.editStatus)] task.id,
           .setAlert (some { message := "Task updated successfully!", type := "success" }),
           .setTimeout .clearAlert 4000, .setEditingTask none] ++ fetchTasks env s := by
        simp only [handleUpdateTask, hv, he, hupd, showAlert]
        rfl
      rw [h, List.filter_append, hfu]
      rfl
  · intro hne
    obtain ⟨e, hupd⟩ := Option.ne_none_iff_exists'.1 hne
    have h : handleUpdateTask env s =
        [.update [("title", s.editTitle), ("description", s.editDescription),
          ("status", s.editStatus)] task.id,
         .setAlert (some { message := "Failed to update task", type := "error" }),
         .setTimeout .clearAlert 4000] := by
      simp [handleUpdateTask, hv, he, hupd, showAlert]
    rw [h]
    refine ⟨by simp [run, Action.apply], by simp [run, Action.apply],
      by simp [run, Action.apply], by simp [run, Action.apply], ?_⟩
    intro a ha
    simp only [List.mem_cons, List.mem_singleton, List.not_mem_nil, or_false] at ha
    rcases ha with rfl | rfl | rfl <;> rfl

/-- Claim C16 at an edit of the sample task that the store rejects. -/
theorem handleUpdateTask_frame_witness :
    validateEditForm (js "new") (js "text") (js "done") = true ∧
    (handleUpdateTask (Env.sample (.error "") (.ok []) (some "row not found"))
        { State.init with
          editingTask := some StoredTask.sample, editTitle := js "new",
          editDescription := js "text", editStatus := js "done" }).filter Action.isUpdate =
      [.update [("title", js "new"), ("description", js "text"), ("status", js "done")] 7] :=
  ⟨by decide,
    (handleUpdateTask_frame (Env.sample (.error "") (.ok []) (some "row not found"))
      { State.init with
        editingTask := some StoredTask.sample, editTitle := js "new",
        editDescription := js "text", editStatus := js "done" }
      StoredTask.sample (by decide) rfl).1⟩

/-- Claim C17: for every task id and every answer of the store,
`handleDeleteTask` issues the delete, exactly once and unconditionally; a
refetch is issued iff the store reports success; on an error the task list is
unchanged and the error notification is shown; on success the success
notification is shown and the refetch follows. -/
theorem handleDeleteTask_outcomes (env : Env) (s : State) (taskId : Nat) :
    (handleDeleteTask env s taskId).filter Action.isDelete = [.delete taskId] ∧
    ((∃ a ∈ handleDeleteTask env s taskId, a.isFetch = true) ↔ env.delete taskId = none) ∧
    (env.delete taskId ≠ none →
      (run s (handleDeleteTask env s taskId)).tasks = s.tasks ∧
      (run s (handleDeleteTask env s taskId)).alert =
        some { message := "Failed to delete task", type := "error" } ∧
      handleDeleteTask env s taskId =
        [.delete taskId,
         .setAlert (some { message := "Failed to delete task", type := "error" }),
         .setTimeout .clearAlert 4000]) ∧
    (env.delete taskId = none →
      handleDeleteTask env s taskId =
        [.delete taskId,
         .setAlert (some { message := "Task deleted successfully", type := "success" }),
         .setTimeout .clearAlert 4000] ++ fetchTasks env s) := by
  have hf := fetchTasks_no_mutation env s
  have hfd : (fetchTasks env s).filter Action.isDelete = [] := by
    rw [List.filter_eq_nil_iff]
    intro a ha
    have := List.all_eq_true.1 hf a ha
    simp only [Bool.and_eq_true, Bool.not_eq_true'] at this
    simp [this.2]
  cases hdel : env.delete taskId with
  | some e =>
    have h : handleDeleteTask env s taskId =
        [.delete taskId,
         .setAlert (some { message := "Failed to delete task", type := "error" }),
         .setTimeout .clearAlert 4000] := by
      simp only [handleDeleteTask, hdel, showAlert]
    rw [h]
    refine ⟨rfl, ?_, ?_, ?_⟩
    · simp [Action.isFetch]
    · intro _
      exact ⟨by simp [run, Action.apply], by simp [run, Action.apply], rfl⟩
    · intro hc
      cases hc
  | none =>
    have h : handleDeleteTask env s taskId =
        [.delete taskId,
         .setAlert (some { message := "Task deleted successfully", type := "success" }),
         .setTimeout .clearAlert 4000] ++ fetchTasks env s := by
      simp only [handleDeleteTask, hdel, showAlert]
      rfl
    rw [h]
    refine ⟨?_, ?_, ?_, ?_⟩
    · rw [List.filter_append, hfd]
      rfl
    · simp only [iff_true]
      have hany := fetchTasks_any_isFetch env s
      rw [List.any_eq_true] at hany
      obtain ⟨a, ha, hfa⟩ := hany
      exact ⟨a, List.mem_append_right _ ha, hfa⟩
    · intro hc
      exact absurd rfl hc
    · intro _
      rfl

/-- Claim C17 at a delete of an unknown id that the store rejects, and at a
delete that succeeds. -/
theorem handleDeleteTask_outcomes_witness :
    (run { State.init with tasks := [StoredTask.sample] }
      (handleDeleteTask (Env.sample (.error "") (.ok []) (some "row not found"))
        { State.init with tasks := [StoredTask.sample] } 99)).tasks = [StoredTask.sample] ∧
    handleDeleteTask (Env.sample (.ok { id := js "u1" }) (.ok []) none)
        { State.init with tasks := [StoredTask.sample] } 7 =
      [.delete 7,
       .setAlert (some { message := "Task deleted successfully", type := "success" }),
       .setTimeout .clearAlert 4000] ++
        fetchTasks (Env.sample (.ok { id := js "u1" }) (.ok []) none)
          { State.init with tasks := [StoredTask.sample] } :=
  ⟨((handleDeleteTask_outcomes (Env.sample (.error "") (.ok []) (some "row not found"))
      { State.init with tasks := [StoredTask.sample] } 99).2.2.1 (by decide)).1,
    (handleDeleteTask_outcomes (Env.sample (.ok { id := js "u1" }) (.ok []) none)
      { State.init with tasks := [StoredTask.sample] } 7).2.2.2 rfl⟩

/-- Claim C20, evaluated on the code: `loading` is `false` after `fetchTasks`
when the user lookup succeeds, whatever the query answers, and `true` when the
user lookup fails, because that branch returns before `setLoading(false)`. -/
theorem fetchTasks_loading_after (env : Env) (s : State) :
    ((run s (fetchTasks env s)).loading =
      match env.getUser with
      | .error _ => true
      | .ok _ => false) ∧
    (run State.init (fetchTasks (Env.sample (.error "no session") (.ok []) none)
      State.init)).loading = true ∧
    (run { State.init with loading := false }
      (fetchTasks (Env.sample (.error "no session") (.ok []) none)
        { State.init with loading := false })).loading = true := by
  refine ⟨?_, by decide, by decide⟩
  rw [fetchTasks_eq]
  cases env.getUser with
  | error m => simp [run, Action.apply]
  | ok user =>
    simp only []
    generalize env.select user.id
      (if s.statusFilter != js "all" then some s.statusFilter else none) = r
    cases r <;> simp [run, Action.apply]

/-! ## Delays of the notifications -/

theorem showAlert_delayIs (message type : String) :
    (showAlert message type).all (Action.delayIs 4000) = true := by
  simp [showAlert, Action.delayIs]

theorem fetchTasks_delayIs (env : Env) (s : State) :
    (fetchTasks env s).all (Action.delayIs 4000) = true := by
  rw [fetchTasks_eq]
  cases env.getUser with
  | error m => simp [Action.delayIs]
  | ok user =>
    simp only []
    generalize env.select user.id
      (if s.statusFilter != js "all" then some s.statusFilter else none) = r
    cases r <;> simp [Action.delayIs]

theorem handleCreateTask_delayIs (env : Env) (s : State) :
    (handleCreateTask env s).all (Action.delayIs 4000) = true := by
  have hf := fetchTasks_delayIs env s
  simp only [fetchTasks, List.all_append, Bool.and_eq_true] at hf
  unfold handleCreateTask
  cases validateForm s.title s.description s.status s.priority with
  | mk newErrors valid =>
    cases valid with
    | false => simp [showAlert, Action.delayIs]
    | true =>
      cases s.user with
      | none => simp [Action.delayIs]
      | some user =>
        simp only []
        cases env.insert
            (insertRow user.id s.title s.description s.status s.tags s.dueDate s.priority) with
        | some e => simp [showAlert, Action.delayIs]
        | none => simp [showAlert, Action.delayIs, List.all_append, hf.2, fetchTasksStart]

theorem handleDeleteTask_delayIs (env : Env) (s : State) (taskId : Nat) :
    (handleDeleteTask env s taskId).all (Action.delayIs 4000) = true := by
  have hf := fetchTasks_delayIs env s
  unfold handleDeleteTask
  cases env.delete taskId with
  | some e => simp [showAlert, Action.delayIs]
  | none => simp [showAlert, Action.delayIs, List.all_append, hf]

theorem handleUpdateTask_delayIs (env : Env) (s : State) :
    (handleUpdateTask env s).all (Action.delayIs 4000) = true := by
  have hf := fetchTasks_delayIs env s
  unfold handleUpdateTask
  cases validateEditForm s.editTitle s.editDescription s.editStatus with
  | false => simp [showAlert, Action.delayIs]
  | true =>
    cases s.editingTask with
    | none => simp
    | some task =>
      simp only []
      cases env.update [("title", s.editTitle), ("description", s.editDescription),
          ("status", s.editStatus)] task.id with
      | some e => simp [showAlert, Action.delayIs]
      | none => simp [showAlert, Action.delayIs, List.all_append, hf]

/-- Claim C18 fails as stated: on the dashboard the error notification
`Failed to delete task` is scheduled to clear after 4000 ms, not 5000 ms. -/
theorem showAlert_error_delay_counterexample :
    Action.setTimeout .clearAlert 5000 ∉ showAlert "Failed to delete task" "error" ∧
    scheduled 0 (showAlert "Failed to delete task" "error") = [(4000, .clearAlert)] := by
  decide

end Dashboard

/-- Claim C18, amended: on the authentication screen every success
notification is scheduled to clear 4 seconds after it is shown and every error
notification 5 seconds after; on the dashboard every notification, whatever its
kind, is scheduled to clear 4 seconds after it is shown. These are the only
delays of the expiries the handlers schedule. -/
theorem notification_delays :
    (∀ message, Auth.showSuccess message =
      [.setSuccess (some message), .setTimeout .clearSuccess 4000]) ∧
    (∀ message, Auth.showError message =
      [.setError (some message), .setTimeout .clearError 5000]) ∧
    (∀ message type, Dashboard.showAlert message type =
      [.setAlert (some { message := message, type := type }), .setTimeout .clearAlert 4000]) ∧
    (∀ env s cb ms, Auth.Action.setTimeout cb ms ∈ Auth.handleSubmit env s →
      (cb = .clearSuccess ∧ ms = 4000) ∨ (cb = .clearError ∧ ms = 5000) ∨
        (cb = .navigate "/dashboard" ∧ ms = 1500)) ∧
    (∀ env s taskId cb ms,
      Dashboard.Action.setTimeout cb ms ∈
        Dashboard.fetchTasks env s ++ Dashboard.handleCreateTask env s ++
          Dashboard.handleDeleteTask env s taskId ++ Dashboard.handleUpdateTask env s →
      cb = .clearAlert ∧ ms = 4000) := by
  refine ⟨fun _ => rfl, fun _ => rfl, fun _ _ => rfl, ?_, ?_⟩
  · intro env s cb ms h
    cases hv : Auth.validated s with
    | false =>
      rw [Auth.handleSubmit_of_invalid env s hv] at h
      simp at h
    | true =>
      rw [Auth.handleSubmit_valid_eq env s hv] at h
      rcases Auth.providerCall_cases env s with hc | hc <;> rw [hc] at h <;>
        revert h <;> cases Auth.providerResult env s <;> cases s.isLogin <;> simp <;>
        tauto
  · intro env s taskId cb ms h
    have hall : (Dashboard.fetchTasks env s ++ Dashboard.handleCreateTask env s ++
        Dashboard.handleDeleteTask env s taskId ++ Dashboard.handleUpdateTask env s).all
        (Dashboard.Action.delayIs 4000) = true := by
      simp [List.all_append, Dashboard.fetchTasks_delayIs, Dashboard.handleCreateTask_delayIs,
        Dashboard.handleDeleteTask_delayIs, Dashboard.handleUpdateTask_delayIs]
    have := List.all_eq_true.1 hall _ h
    cases cb
    exact ⟨rfl, by simpa [Dashboard.Action.delayIs] using this⟩

/-- Claim C18, amended, at a sign-in that the provider rejects: its error
notification expires after 5000 ms. -/
theorem notification_delays_witness :
    Auth.Action.setTimeout .clearError 5000 ∈
      Auth.handleSubmit (Auth.Env.sample (.error "Invalid login credentials") .ok)
        (Auth.State.sample true "a@b.com" "abcdef") ∧
    ((Auth.Callback.clearError = .clearSuccess ∧ 5000 = 4000) ∨
      (Auth.Callback.clearError = .clearError ∧ 5000 = 5000) ∨
      (Auth.Callback.clearError = .navigate "/dashboard" ∧ 5000 = 1500)) :=
  ⟨by decide,
    notification_delays.2.2.2.1 (Auth.Env.sample (.error "Invalid login credentials") .ok)
      (Auth.State.sample true "a@b.com" "abcdef") .clearError 5000 (by decide)⟩

/-! ## Timers -/

namespace Dashboard

theorem run_append (s : State) (a b : List Action) : run s (a ++ b) = run (run s a) b := by
  simp [run, List.foldl_append]

theorem run_callbacks_alert (l : List (Nat × Callback)) (st : State) :
    (run st (l.flatMap fun p => p.2.actions)).alert = if l = [] then st.alert else none := by
  induction l generalizing st with
  | nil => simp [run]
  | cons p l ih =>
    rw [List.flatMap_cons, run_append, ih]
    cases p with
    | mk t cb =>
      cases cb
      by_cases hl : l = [] <;> simp [hl, Callback.actions, run, Action.apply]

theorem due_eq_nil_iff (c : Timed) (t : Nat) :
    c.due t = [] ↔ ∀ p ∈ c.timers, t < p.1 := by
  unfold Timed.due
  rw [← List.length_eq_zero, List.length_insertionSort, List.length_eq_zero,
    List.filter_eq_nil_iff]
  simp

theorem advance_alert (c : Timed) (t : Nat) :
    (c.advance t).state.alert = if c.due t = [] then c.state.alert else none := by
  simp only [Timed.advance]
  exact run_callbacks_alert _ _

theorem perform_showAlert (c : Timed) (message type : String) :
    c.perform (showAlert message type) =
      { c with
        state := { c.state with alert := some { message := message, type := type } }
        timers := c.timers ++ [(c.now + 4000, .clearAlert)] } := by
  simp [Timed.perform, showAlert, run, Action.apply, scheduled]

/-- Claim C19 fails as stated: with `A` shown at time 0 and `B` at time 3000,
two expiries are pending, and the expiry of `A` clears `B` at time 4000, 3000 ms
before the expiry of `B`. -/
theorem stale_timer_counterexample :
    (((({ now := 0, state := State.init, timers := [] } : Timed).perform
        (showAlert "A" "success")).advance 3000).perform
        (showAlert "B" "error")).timers.length = 2 ∧
    ((((({ now := 0, state := State.init, timers := [] } : Timed).perform
        (showAlert "A" "success")).advance 3000).perform
        (showAlert "B" "error")).advance 4000).state.alert = none ∧
    (((({ now := 0, state := State.init, timers := [] } : Timed).perform
        (showAlert "A" "success")).advance 3000).perform
        (showAlert "B" "error")).state.alert = some { message := "B", type := "error" } := by
  decide

end Dashboard

namespace Auth

theorem fire_success (l : List (Nat × Callback)) (c : Timed) :
    (l.foldl (fun st p => p.2.fire st) c).state.success =
      if l.any (fun p => p.2 == .clearSuccess) then none else c.state.success := by
  induction l generalizing c with
  | nil => simp
  | cons p l ih =>
    rw [List.foldl_cons, ih]
    cases p with
    | mk t cb =>
      cases cb <;> cases h : l.any (fun p => p.2 == .clearSuccess) <;>
        simp [Callback.fire, h]

theorem fire_error (l : List (Nat × Callback)) (c : Timed) :
    (l.foldl (fun st p => p.2.fire st) c).state.error =
      if l.any (fun p => p.2 == .clearError) then none else c.state.error := by
  induction l generalizing c with
  | nil => simp
  | cons p l ih =>
    rw [List.foldl_cons, ih]
    cases p with
    | mk t cb =>
      cases cb <;> cases h : l.any (fun p => p.2 == .clearError) <;>
        simp [Callback.fire, h]

theorem mem_due (c : Timed) (t : Nat) (p : Nat × Callback) :
    p ∈ c.due t ↔ p ∈ c.timers ∧ p.1 ≤ t := by
  unfold Timed.due
  rw [(List.perm_insertionSort _ _).mem_iff]
  simp [List.mem_filter]

theorem advance_success (c : Timed) (t : Nat) :
    (c.advance t).state.success =
      if (c.due t).any (fun p => p.2 == .clearSuccess) then none else c.state.success := by
  simp only [Timed.advance]
  exact fire_success _ _

theorem advance_error (c : Timed) (t : Nat) :
    (c.advance t).state.error =
      if (c.due t).any (fun p => p.2 == .clearError) then none else c.state.error := by
  simp only [Timed.advance]
  exact fire_error _ _

theorem perform_showSuccess (c : Timed) (message : String) :
    c.perform (showSuccess message) =
      { c with
        state := { c.state with success := some message }
        timers := c.timers ++ [(c.now + 4000, .clearSuccess)] } := by
  simp [Timed.perform, showSuccess, run, Action.apply, scheduled]

theorem perform_showError (c : Timed) (message : String) :
    c.perform (showError message) =
      { c with
        state := { c.state with error := some message }
        timers := c.timers ++ [(c.now + 5000, .clearError)] } := by
  simp [Timed.perform, showError, run, Action.apply, scheduled]

end Auth

namespace Dashboard

/-- The alert displayed some time after a show. -/
theorem advance_showAlert (c : Timed) (message type : String) (t : Nat) :
    ((c.perform (showAlert message type)).advance t).state.alert =
      if (∀ p ∈ c.timers, t < p.1) ∧ t < c.now + 4000 then
        some { message := message, type := type }
      else none := by
  rw [advance_alert, perform_showAlert]
  have hiff : Timed.due
      { c with
        state := { c.state with alert := some { message := message, type := type } }
        timers := c.timers ++ [(c.now + 4000, Callback.clearAlert)] } t = [] ↔
      (∀ p ∈ c.timers, t < p.1) ∧ t < c.now + 4000 := by
    rw [due_eq_nil_iff]
    constructor
    · intro h
      exact ⟨fun p hp => h p (by simp [hp]), h (c.now + 4000, .clearAlert) (by simp)⟩
    · rintro ⟨h1, h2⟩ p hp
      simp only [List.mem_append, List.mem_singleton] at hp
      rcases hp with hp | rfl
      · exact h1 p hp
      · exact h2
  by_cases h : (∀ p ∈ c.timers, t < p.1) ∧ t < c.now + 4000
  · rw [if_pos (hiff.2 h), if_pos h]
  · rw [if_neg (fun hd => h (hiff.1 hd)), if_neg h]

theorem mem_timers_after (c : Timed) (message type : String) (t1 : Nat)
    (h1 : t1 < c.now + 4000) :
    (c.now + 4000, Callback.clearAlert) ∈
      ((c.perform (showAlert message type)).advance t1).timers := by
  rw [perform_showAlert]
  simp [Timed.advance, List.mem_filter, h1]

end Dashboard

namespace Auth

theorem any_clear_eq_false_iff (l : List (Nat × Callback)) (cb : Callback) :
    l.any (fun p => p.2 == cb) = false ↔ ∀ p ∈ l, p.2 ≠ cb := by
  simp [List.any_eq_false]

/-- The success message displayed some time after a show. -/
theorem advance_showSuccess (c : Timed) (message : String) (t : Nat) :
    ((c.perform (showSuccess message)).advance t).state.success =
      if (∀ p ∈ c.timers, p.2 = .clearSuccess → t < p.1) ∧ t < c.now + 4000 then some message
      else none := by
  rw [advance_success, perform_showSuccess]
  have hiff : (Timed.due
      { c with
        state := { c.state with success := some message }
        timers := c.timers ++ [(c.now + 4000, Callback.clearSuccess)] } t).any
        (fun p => p.2 == .clearSuccess) = false ↔
      (∀ p ∈ c.timers, p.2 = .clearSuccess → t < p.1) ∧ t < c.now + 4000 := by
    rw [any_clear_eq_false_iff]
    constructor
    · intro h
      refine ⟨fun p hp hcb => ?_, ?_⟩
      · by_contra hlt
        exact h p ((mem_due _ _ _).2 ⟨by simp [hp], by omega⟩) hcb
      · by_contra hlt
        exact h (c.now + 4000, .clearSuccess)
          ((mem_due _ _ _).2 ⟨by simp, by simp only; omega⟩) rfl
    · rintro ⟨h1, h2⟩ p hp hcb
      obtain ⟨hp, hle⟩ := (mem_due _ _ _).1 hp
      simp only [List.mem_append, List.mem_singleton] at hp
      rcases hp with hp | rfl
      · exact absurd (h1 p hp hcb) (by omega)
      · simp only at hle
        omega
  by_cases h : (∀ p ∈ c.timers, p.2 = .clearSuccess → t < p.1) ∧ t < c.now + 4000
  · rw [hiff.2 h, if_pos h]
    simp
  · have hne : (Timed.due
        { c with
          state := { c.state with success := some message }
          timers := c.timers ++ [(c.now + 4000, Callback.clearSuccess)] } t).any
          (fun p => p.2 == .clearSuccess) = true := by
      rw [← Bool.not_eq_false]
      exact fun hf => h (hiff.1 hf)
    rw [hne, if_neg h]
    simp

/-- The error message displayed some time after a show. -/
theorem advance_showError (c : Timed) (message : String) (t : Nat) :
    ((c.perform (showError message)).advance t).state.error =
      if (∀ p ∈ c.timers, p.2 = .clearError → t < p.1) ∧ t < c.now + 5000 then some message
      else none := by
  rw [advance_error, perform_showError]
  have hiff : (Timed.due
      { c with
        state := { c.state with error := some message }
        timers := c.timers ++ [(c.now + 5000, Callback.clearError)] } t).any
        (fun p => p.2 == .clearError) = false ↔
      (∀ p ∈ c.timers, p.2 = .clearError → t < p.1) ∧ t < c.now + 5000 := by
    rw [any_clear_eq_false_iff]
    constructor
    · intro h
      refine ⟨fun p hp hcb => ?_, ?_⟩
      · by_contra hlt
        exact h p ((mem_due _ _ _).2 ⟨by simp [hp], by omega⟩) hcb
      · by_contra hlt
        exact h (c.now + 5000, .clearError)
          ((mem_due _ _ _).2 ⟨by simp, by simp only; omega⟩) rfl
    · rintro ⟨h1, h2⟩ p hp hcb
      obtain ⟨hp, hle⟩ := (mem_due _ _ _).1 hp
      simp only [List.mem_append, List.mem_singleton] at hp
      rcases hp with hp | rfl
      · exact absurd (h1 p hp hcb) (by omega)
      · simp only at hle
        omega
  by_cases h : (∀ p ∈ c.timers, p.2 = .clearError → t < p.1) ∧ t < c.now + 5000
  · rw [hiff.2 h, if_pos h]
    simp
  · have hne : (Timed.due
        { c with
          state := { c.state with error := some message }
          timers := c.timers ++ [(c.now + 5000, Callback.clearError)] } t).any
          (fun p => p.2 == .clearError) = true := by
      rw [← Bool.not_eq_false]
      exact fun hf => h (hiff.1 hf)
    rw [hne, if_neg h]
    simp

theorem mem_timers_after_success (c : Timed) (message : String) (t1 : Nat)
    (h1 : t1 < c.now + 4000) :
    (c.now + 4000, Callback.clearSuccess) ∈
      ((c.perform (showSuccess message)).advance t1).timers := by
  rw [perform_showSuccess]
  simp [Timed.advance, List.mem_filter, h1]

theorem mem_timers_after_error (c : Timed) (message : String) (t1 : Nat)
    (h1 : t1 < c.now + 5000) :
    (c.now + 5000, Callback.clearError) ∈
      ((c.perform (showError message)).advance t1).timers := by
  rw [perform_showError]
  simp [Timed.advance, List.mem_filter, h1]

end Auth

/-- Claim C19, amended, for the dashboard alert (4 s), the authentication
success (4 s) and the authentication error (5 s): a show displays its
notification in place of whatever was displayed, adds one pending expiry and
cancels none. The notification is still displayed at a time `t` before the show
plus its delay if no expiry pending from an earlier show of the channel is due
by `t`; it is cleared once the show plus its delay is reached; and it is
cleared as soon as an expiry pending from an earlier show becomes due. So with
a first show, a second show before the first expiry, and then the first
expiry, both expiries are pending and the first clears the second
notification. -/
theorem show_expiry :
    (∀ (c : Dashboard.Timed) (message type : String),
      (c.perform (Dashboard.showAlert message type)).timers =
        c.timers ++ [(c.now + 4000, .clearAlert)] ∧
      (c.perform (Dashboard.showAlert message type)).state.alert =
        some { message := message, type := type }) ∧
    (∀ (c : Dashboard.Timed) (message type : String) (t : Nat),
      (∀ p ∈ c.timers, t < p.1) → t < c.now + 4000 →
      ((c.perform (Dashboard.showAlert message type)).advance t).state.alert =
        some { message := message, type := type }) ∧
    (∀ (c : Dashboard.Timed) (message type : String) (t : Nat), c.now + 4000 ≤ t →
      ((c.perform (Dashboard.showAlert message type)).advance t).state.alert = none) ∧
    (∀ (c : Dashboard.Timed) (message type : String) (t : Nat) (p : Nat × Dashboard.Callback),
      p ∈ c.timers → p.1 ≤ t →
      ((c.perform (Dashboard.showAlert message type)).advance t).state.alert = none) ∧
    (∀ (c : Dashboard.Timed) (first firstType second secondType : String) (t1 t : Nat),
      t1 < c.now + 4000 → c.now + 4000 ≤ t →
      (((c.perform (Dashboard.showAlert first firstType)).advance t1).perform
        (Dashboard.showAlert second secondType)).state.alert =
        some { message := second, type := secondType } ∧
      (c.now + 4000, Dashboard.Callback.clearAlert) ∈
        (((c.perform (Dashboard.showAlert first firstType)).advance t1).perform
          (Dashboard.showAlert second secondType)).timers ∧
      (max c.now t1 + 4000, Dashboard.Callback.clearAlert) ∈
        (((c.perform (Dashboard.showAlert first firstType)).advance t1).perform
          (Dashboard.showAlert second secondType)).timers ∧
      ((((c.perform (Dashboard.showAlert first firstType)).advance t1).perform
        (Dashboard.showAlert second secondType)).advance t).state.alert = none) ∧
    (∀ (c : Auth.Timed) (message : String),
      (c.perform (Auth.showSuccess message)).timers =
        c.timers ++ [(c.now + 4000, .clearSuccess)] ∧
      (c.perform (Auth.showSuccess message)).state.success = some message) ∧
    (∀ (c : Auth.Timed) (message : String) (t : Nat),
      (∀ p ∈ c.timers, p.2 = .clearSuccess → t < p.1) → t < c.now + 4000 →
      ((c.perform (Auth.showSuccess message)).advance t).state.success = some message) ∧
    (∀ (c : Auth.Timed) (message : String) (t : Nat), c.now + 4000 ≤ t →
      ((c.perform (Auth.showSuccess message)).advance t).state.success = none) ∧
    (∀ (c : Auth.Timed) (message : String) (t : Nat) (p : Nat × Auth.Callback),
      p ∈ c.timers → p.2 = .clearSuccess → p.1 ≤ t →
      ((c.perform (Auth.showSuccess message)).advance t).state.success = none) ∧
    (∀ (c : Auth.Timed) (first second : String) (t1 t : Nat),
      t1 < c.now + 4000 → c.now + 4000 ≤ t →
      (((c.perform (Auth.showSuccess first)).advance t1).perform
        (Auth.showSuccess second)).state.success = some second ∧
      ((((c.perform (Auth.showSuccess first)).advance t1).perform
        (Auth.showSuccess second)).advance t).state.success = none) ∧
    (∀ (c : Auth.Timed) (message : String),
      (c.perform (Auth.showError message)).timers =
        c.timers ++ [(c.now + 5000, .clearError)] ∧
      (c.perform (Auth.showError message)).state.error = some message) ∧
    (∀ (c : Auth.Timed) (message : String) (t : Nat),
      (∀ p ∈ c.timers, p.2 = .clearError → t < p.1) → t < c.now + 5000 →
      ((c.perform (Auth.showError message)).advance t).state.error = some message) ∧
    (∀ (c : Auth.Timed) (message : String) (t : Nat), c.now + 5000 ≤ t →
      ((c.perform (Auth.showError message)).advance t).state.error = none) ∧
    (∀ (c : Auth.Timed) (message : String) (t : Nat) (p : Nat × Auth.Callback),
      p ∈ c.timers → p.2 = .clearError → p.1 ≤ t →
      ((c.perform (Auth.showError message)).advance t).state.error = none) ∧
    (∀ (c : Auth.Timed) (first second : String) (t1 t : Nat),
      t1 < c.now + 5000 → c.now + 5000 ≤ t →
      (((c.perform (Auth.showError first)).advance t1).perform
        (Auth.showError second)).state.error = some second ∧
      ((((c.perform (Auth.showError first)).advance t1).perform
        (Auth.showError second)).advance t).state.error = none) := by
  refine ⟨?_, ?_, ?_, ?_, ?_, ?_, ?_, ?_, ?_, ?_, ?_, ?_, ?_, ?_, ?_⟩
  · intro c message type
    rw [Dashboard.perform_showAlert]
    exact ⟨rfl, rfl⟩
  · intro c message type t hold hnew
    rw [Dashboard.advance_showAlert, if_pos ⟨hold, hnew⟩]
  · intro c message type t hnew
    rw [Dashboard.advance_showAlert, if_neg]
    rintro ⟨_, h⟩
    omega
  · intro c message type t p hp hle
    rw [Dashboard.advance_showAlert, if_neg]
    rintro ⟨h, _⟩
    have := h p hp
    omega
  · intro c first firstType second secondType t1 t h1 h2
    have hmem := Dashboard.mem_timers_after c first firstType t1 h1
    refine ⟨?_, ?_, ?_, ?_⟩
    · rw [Dashboard.perform_showAlert]
    · rw [Dashboard.perform_showAlert]
      exact List.mem_append_left _ hmem
    · rw [Dashboard.perform_showAlert
        ((c.perform (Dashboard.showAlert first firstType)).advance t1)]
      simp [Dashboard.Timed.advance, Dashboard.Timed.perform]
    · rw [Dashboard.advance_showAlert, if_neg]
      rintro ⟨h, _⟩
      have := h _ hmem
      simp only at this
      omega
  · intro c message
    rw [Auth.perform_showSuccess]
    exact ⟨rfl, rfl⟩
  · intro c message t hold hnew
    rw [Auth.advance_showSuccess, if_pos ⟨hold, hnew⟩]
  · intro c message t hnew
    rw [Auth.advance_showSuccess, if_neg]
    rintro ⟨_, h⟩
    omega
  · intro c message t p hp hcb hle
    rw [Auth.advance_showSuccess, if_neg]
    rintro ⟨h, _⟩
    have := h p hp hcb
    omega
  · intro c first second t1 t h1 h2
    have hmem := Auth.mem_timers_after_success c first t1 h1
    refine ⟨?_, ?_⟩
    · rw [Auth.perform_showSuccess]
    · rw [Auth.advance_showSuccess, if_neg]
      rintro ⟨h, _⟩
      have := h _ hmem rfl
      simp only at this
      omega
  · intro c message
    rw [Auth.perform_showError]
    exact ⟨rfl, rfl⟩
  · intro c message t hold hnew
    rw [Auth.advance_showError, if_pos ⟨hold, hnew⟩]
  · intro c message t hnew
    rw [Auth.advance_showError, if_neg]
    rintro ⟨_, h⟩
    omega
  · intro c message t p hp hcb hle
    rw [Auth.advance_showError, if_neg]
    rintro ⟨h, _⟩
    have := h p hp hcb
    omega
  · intro c first second t1 t h1 h2
    have hmem := Auth.mem_timers_after_error c first t1 h1
    refine ⟨?_, ?_⟩
    · rw [Auth.perform_showError]
    · rw [Auth.advance_showError, if_neg]
      rintro ⟨h, _⟩
      have := h _ hmem rfl
      simp only at this
      omega

/-- Claim C19, amended: `A` shown at 0 and `B` at 3000 leaves nothing
displayed at 4000; and with an expiry pending for time 4000, an alert shown at
3000 is displayed at 3999 and cleared at 4000. -/
theorem show_expiry_witness :
    ((((Dashboard.Timed.init.perform (Dashboard.showAlert "A" "success")).advance 3000).perform
        (Dashboard.showAlert "B" "error")).advance 4000).state.alert = none ∧
    (∀ p ∈ Dashboard.Timed.samplePending.timers, 3999 < p.1) ∧
    ((Dashboard.Timed.samplePending.perform (Dashboard.showAlert "B" "error")).advance
      3999).state.alert = some { message := "B", type := "error" } ∧
    ((Dashboard.Timed.samplePending.perform (Dashboard.showAlert "B" "error")).advance
      4000).state.alert = none :=
  ⟨(show_expiry.2.2.2.2.1 Dashboard.Timed.init "A" "success" "B" "error" 3000 4000
      (by decide) (by decide)).2.2.2,
    by decide,
    show_expiry.2.1 Dashboard.Timed.samplePending "B" "error" 3999 (by decide) (by decide),
    show_expiry.2.2.2.1 Dashboard.Timed.samplePending "B" "error" 4000 (4000, .clearAlert)
      (by decide) (by decide)⟩

namespace Auth

/-! ## At most one notification on the authentication screen -/

/-- The error message and the success message are not both set. -/
theorem handleSubmit_one_notification (env : Env) (s : State) :
    (run s (handleSubmit env s)).error = none ∨ (run s (handleSubmit env s)).success = none := by
  cases hv : validated s with
  | false =>
    rw [handleSubmit_of_invalid env s hv]
    left
    simp [run, Action.apply]
  | true =>
    rw [handleSubmit_valid_eq env s hv]
    rcases providerCall_cases env s with h | h <;> rw [h] <;>
      cases providerResult env s <;> cases s.isLogin <;> simp [run, Action.apply]

theorem handleEmailChange_notifications (s : State) (value : Str) :
    (run s (handleEmailChange s value)).error = s.error ∧
      (run s (handleEmailChange s value)).success = s.success := by
  unfold handleEmailChange
  split_ifs <;> simp [run, Action.apply]

theorem handlePasswordChange_notifications (s : State) (value : Str) :
    (run s (handlePasswordChange s value)).error = s.error ∧
      (run s (handlePasswordChange s value)).success = s.success := by
  unfold handlePasswordChange
  split_ifs <;> simp [run, Action.apply]

theorem toggleMode_notifications (s : State) :
    (run s (toggleMode s)).error = none ∧ (run s (toggleMode s)).success = none := by
  simp [toggleMode, run, Action.apply]

theorem step_one_notification {c d : Timed} (h : Step c d)
    (hc : c.state.error = none ∨ c.state.success = none) :
    d.state.error = none ∨ d.state.success = none := by
  cases h with
  | emailChange value =>
    have := handleEmailChange_notifications c.state value
    simp only [Timed.perform]
    rw [this.1, this.2]
    exact hc
  | passwordChange value =>
    have := handlePasswordChange_notifications c.state value
    simp only [Timed.perform]
    rw [this.1, this.2]
    exact hc
  | submit env => exact handleSubmit_one_notification env c.state
  | toggle => exact Or.inl (toggleMode_notifications c.state).1
  | expire t =>
    rw [advance_error, advance_success]
    rcases hc with hc | hc
    · left
      split_ifs <;> simp [hc]
    · right
      split_ifs <;> simp [hc]

/-- Claim C21: on the authentication screen, taking each input change, each
complete run of `handleSubmit`, each toggle of the mode and each expiry of
timers as one atomic step from the initial state, in every reachable state the
error message and the success message are not both set. -/
theorem at_most_one_notification (c : Timed) (h : Reachable c) :
    ¬ (c.state.error ≠ none ∧ c.state.success ≠ none) := by
  have hinv : c.state.error = none ∨ c.state.success = none := by
    induction h with
    | init => exact Or.inl rfl
    | step _ hs ih => exact step_one_notification hs ih
  rintro ⟨he, hs⟩
  rcases hinv with h | h
  · exact he h
  · exact hs h

/-- Claim C21 at the state reached by typing an email and a password and
submitting a sign-in that the provider accepts: the success message is set, the
error message is not. -/
theorem at_most_one_notification_witness :
    Reachable Timed.sampleRun ∧
    Timed.sampleRun.state.success = some "Login successful! Redirecting..." ∧
    ¬ (Timed.sampleRun.state.error ≠ none ∧ Timed.sampleRun.state.success ≠ none) :=
  have hr : Reachable Timed.sampleRun :=
    Reachable.step
      (Reachable.step (Reachable.step Reachable.init (Step.emailChange _ (js " a@b.com ")))
        (Step.passwordChange _ (js "abcdef")))
      (Step.submit _ (Env.sample .ok .ok))
  ⟨hr, by decide, at_most_one_notification Timed.sampleRun hr⟩

end Auth

theorem trim_trim (s : Str) : trim (trim s) = trim s :=
  trim_eq_self (noEdgeSpace_trim s)

namespace Dashboard

/-! ## The writes of the dashboard -/

theorem insert_not_mem_fetchTasks (env : Env) (s : State) (row : TaskRow) :
    Action.insert row ∉ fetchTasks env s := by
  intro ha
  have := List.all_eq_true.1 (fetchTasks_no_mutation env s) _ ha
  simp [Action.isInsert] at this

theorem update_not_mem_fetchTasks (env : Env) (s : State) (payload : List (String × Str))
    (taskId : Nat) : Action.update payload taskId ∉ fetchTasks env s := by
  intro ha
  have := List.all_eq_true.1 (fetchTasks_no_mutation env s) _ ha
  simp [Action.isUpdate] at this

/-- An insert of `handleCreateTask` is the row built from the form, after a
validation that passed and with a user in the state. -/
theorem mem_handleCreateTask_insert (env : Env) (s : State) (row : TaskRow)
    (h : Action.insert row ∈ handleCreateTask env s) :
    (validateForm s.title s.description s.status s.priority).2 = true ∧
      ∃ user, s.user = some user ∧
        row = insertRow user.id s.title s.description s.status s.tags s.dueDate s.priority := by
  have hf := insert_not_mem_fetchTasks env s row
  simp only [fetchTasks, List.mem_append, not_or] at hf
  unfold handleCreateTask at h
  cases hv : validateForm s.title s.description s.status s.priority with
  | mk newErrors valid =>
    rw [hv] at h
    cases valid with
    | false => simp [showAlert] at h
    | true =>
      refine ⟨rfl, ?_⟩
      cases hu : s.user with
      | none =>
        rw [hu] at h
        simp at h
      | some user =>
        rw [hu] at h
        refine ⟨user, rfl, ?_⟩
        simp only [] at h
        cases hi : env.insert
            (insertRow user.id s.title s.description s.status s.tags s.dueDate s.priority) with
        | some e =>
          rw [hi] at h
          simpa [showAlert] using h
        | none =>
          rw [hi] at h
          simpa [showAlert, hf.2, fetchTasksStart] using h

/-- An update of `handleUpdateTask` carries the edit fields, after a
validation that passed. -/
theorem mem_handleUpdateTask_update (env : Env) (s : State) (payload : List (String × Str))
    (taskId : Nat) (h : Action.update payload taskId ∈ handleUpdateTask env s) :
    validateEditForm s.editTitle s.editDescription s.editStatus = true ∧
      payload = [("title", s.editTitle), ("description", s.editDescription),
        ("status", s.editStatus)] := by
  have hf := update_not_mem_fetchTasks env s payload taskId
  unfold handleUpdateTask at h
  cases hv : validateEditForm s.editTitle s.editDescription s.editStatus with
  | false =>
    rw [hv] at h
    simp [showAlert] at h
  | true =>
    refine ⟨rfl, ?_⟩
    rw [hv] at h
    cases he : s.editingTask with
    | none =>
      rw [he] at h
      simp at h
    | some task =>
      rw [he] at h
      simp only [] at h
      cases hu : env.update [("title", s.editTitle), ("description", s.editDescription),
          ("status", s.editStatus)] task.id with
      | some e =>
        rw [hu] at h
        simp [showAlert] at h
        exact h.1
      | none =>
        rw [hu] at h
        simp [showAlert, hf] at h
        exact h.1

theorem validateEditForm_eq_true_iff (title description status : Str) :
    validateEditForm title description status = true ↔
      trim title ≠ [] ∧ trim description ≠ [] ∧ status ≠ [] := by
  cases h1 : trim title <;> cases h2 : trim description <;> cases status <;>
    simp [validateEditForm, truthy, h1, h2]

/-- Claim C22: for every state of the dashboard and all answers of the store,
a row inserted by `handleCreateTask` and a payload sent by `handleUpdateTask`
have a title and a description that are non-empty after trimming, and the write
is issued only when the corresponding validator passed. -/
theorem writes_keep_title_description (env : Env) (s : State) :
    (∀ row, Action.insert row ∈ handleCreateTask env s →
      (validateForm s.title s.description s.status s.priority).2 = true ∧
      trim row.title ≠ [] ∧ trim row.description ≠ []) ∧
    (∀ payload taskId, Action.update payload taskId ∈ handleUpdateTask env s →
      validateEditForm s.editTitle s.editDescription s.editStatus = true ∧
      ∃ title description,
        payload.lookup "title" = some title ∧ payload.lookup "description" = some description ∧
        trim title ≠ [] ∧ trim description ≠ []) := by
  constructor
  · intro row h
    obtain ⟨hv, user, _, rfl⟩ := mem_handleCreateTask_insert env s row h
    refine ⟨hv, ?_⟩
    rw [validateForm_value] at hv
    simp only [Bool.and_eq_true, truthy_eq_true_iff] at hv
    simp only [insertRow, trim_trim]
    exact ⟨hv.1.1.1, hv.1.1.2⟩
  · intro payload taskId h
    obtain ⟨hv, rfl⟩ := mem_handleUpdateTask_update env s payload taskId h
    refine ⟨hv, s.editTitle, s.editDescription, ?_, ?_, ?_⟩
    · rfl
    · rfl
    · exact ⟨((validateEditForm_eq_true_iff _ _ _).1 hv).1,
        ((validateEditForm_eq_true_iff _ _ _).1 hv).2.1⟩

/-- Claim C22 at the sample create form: the row is inserted and its title
and description are non-empty after trimming. -/
theorem writes_keep_title_description_witness :
    Action.insert (insertRow (js "u1") (js " Buy milk ") (js "2 litres") (js "pending")
        (js "home") (js "") (js "High")) ∈
      handleCreateTask (Env.sample (.ok { id := js "u1" }) (.ok []) none) State.sampleForm ∧
    trim (insertRow (js "u1") (js " Buy milk ") (js "2 litres") (js "pending")
        (js "home") (js "") (js "High")).title ≠ [] ∧
    trim (insertRow (js "u1") (js " Buy milk ") (js "2 litres") (js "pending")
        (js "home") (js "") (js "High")).description ≠ [] :=
  ⟨by decide,
    ((writes_keep_title_description (Env.sample (.ok { id := js "u1" }) (.ok []) none)
      State.sampleForm).1 _ (by decide)).2⟩

end Dashboard
namespace Auth

/-! ## The strict validator and the strength indicator -/

theorem passCount_eq_five_iff (p : Str) :
    passCount p = 5 ↔
      6 ≤ p.length ∧ p.any isLower = true ∧ p.any isUpper = true ∧ p.any isDigit = true ∧
        p.any isSpecial = true := by
  unfold passCount
  by_cases h : 6 ≤ p.length <;> cases p.any isLower <;> cases p.any isUpper <;>
    cases p.any isDigit <;> cases p.any isSpecial <;> simp [h]

theorem strength_eq_strong_iff (p : Str) : strength p = .strong ↔ passCount p = 5 := by
  have hle : passCount p ≤ 5 := by
    unfold passCount
    split_ifs <;> omega
  unfold strength
  rw [passedChecks_eq]
  split_ifs <;> simp <;> omega

/-- Claim C23: for every non-empty password `p`, `validatePassword p true`
returns `null` iff the strength indicator shows `strong` and `p.length ≤ 128`;
and each lookahead test of the validator accepts exactly the strings the plain
class test of the indicator accepts, for the lowercase, uppercase, digit and
special classes, strings with line breaks included. -/
theorem strict_validator_agrees_with_indicator :
    (∀ p : Str, p ≠ [] →
      (validatePassword p true = none ↔
        PasswordStrengthIndicator false p = some .strong ∧ p.length ≤ 128)) ∧
    (∀ s : Str, lowerLookahead.test s = Regex.test (.set false [.range 0x61 0x7A]) s) ∧
    (∀ s : Str, upperLookahead.test s = Regex.test (.set false [.range 0x41 0x5A]) s) ∧
    (∀ s : Str, digitLookahead.test s = Regex.test (.set false [.digit]) s) ∧
    (∀ s : Str, specialLookahead.test s = Regex.test (.set false specialAtoms) s) ∧
    lowerLookahead.test [0x41, 0x0A, 0x61] = true ∧
    validatePassword [0x41, 0x0A, 0x61, 0x31, 0x21, 0x0D, 0x42] true = none := by
  refine ⟨?_, ?_, ?_, ?_, ?_, by decide, by decide⟩
  · intro p hp
    have ht : truthy p = true := (truthy_iff p).2 hp
    rw [validatePassword_true_eq]
    simp only [PasswordStrengthIndicator, ht, Bool.false_or, Bool.not_true, Bool.false_eq_true,
      if_false, Option.some.injEq, strength_eq_strong_iff, passCount_eq_five_iff, hp]
    by_cases h1 : p.length < 6
    · simp only [h1, if_true]
      constructor
      · intro h
        cases h
      · rintro ⟨⟨h6, _⟩, _⟩
        omega
    by_cases h2 : p.length > 128
    · simp only [h1, h2, if_true, if_false]
      constructor
      · intro h
        cases h
      · rintro ⟨_, h128⟩
        omega
    have h6 : 6 ≤ p.length := by omega
    have h128 : p.length ≤ 128 := by omega
    simp only [h1, h2, if_false, h6, h128, true_and, and_true]
    cases p.any isLower <;> cases p.any isUpper <;> cases p.any isDigit <;>
      cases p.any isSpecial <;> simp
  · intro s
    rw [lowerLookahead_test, lower_test]
  · intro s
    rw [upperLookahead_test, upper_test]
  · intro s
    rw [digitLookahead_test, digit_test]
  · intro s
    rw [specialLookahead_test, special_test]

/-- Claim C23 at the password `Abcdef1!`. -/
theorem strict_validator_agrees_with_indicator_witness :
    js "Abcdef1!" ≠ [] ∧
    (validatePassword (js "Abcdef1!") true = none ↔
      PasswordStrengthIndicator false (js "Abcdef1!") = some .strong ∧
        (js "Abcdef1!").length ≤ 128) :=
  ⟨by decide, strict_validator_agrees_with_indicator.1 (js "Abcdef1!") (by decide)⟩

end Auth
end TaskManagement
